import Mathlib

/-!
Verification of the wikitext serializer core of nell-parsoid
(src/js/api/ParserService.js) against its natural-language specification.

The JavaScript source is shallowly embedded: strings become `List Char`,
JavaScript regular-expression tests become executable boolean predicates
that mirror the regex semantics, nullable values become `Option`, and the
mutable serializer state is threaded explicitly.  Each definition carries a
reference to the source function it embeds.
-/

namespace NellParsoid

/-! ## Basic character and string helpers (JS regex semantics) -/

/-- The apostrophe character, built from its code point. -/
def apos : Char := Char.ofNat 39

/-- JS `\s` (whitespace class), restricted to the code points that can occur
in the byte strings this serializer handles; mirrors the JS whitespace class
on ASCII plus no-break space and the unicode line separators. -/
def isJsSpace (c : Char) : Bool :=
  c = ' ' || c = '\t' || c = '\n' || c = '\r' ||
  c.toNat = 0x0b || c.toNat = 0x0c || c.toNat = 0xa0 ||
  c.toNat = 0x2028 || c.toNat = 0x2029 || c.toNat = 0xfeff

/-- JS line terminators (the characters `.` does not match). -/
def isLineTerm (c : Char) : Bool :=
  c = '\n' || c = '\r' || c.toNat = 0x2028 || c.toNat = 0x2029

/-- Does `sub` occur as a contiguous substring of the second argument? -/
def containsSub (sub : List Char) : List Char → Bool
  | [] => sub.isEmpty
  | c :: rest => sub.isPrefixOf (c :: rest) || containsSub sub rest

/-- JS word character (`\w`). -/
def isWordChar (c : Char) : Bool := c.isAlphanum || c = '_'

/-- Does the word `w` occur bounded by `\b` on both sides?  `pre` is the
character immediately before the scan position (none at start of string). -/
def wordOccursAux (w : List Char) (pre : Option Char) : List Char → Bool
  | [] => false
  | c :: rest =>
    ((match pre with | none => true | some p => !isWordChar p) &&
      w.isPrefixOf (c :: rest) &&
      (match (c :: rest).drop w.length with
       | [] => true
       | d :: _ => !isWordChar d)) ||
    wordOccursAux w (some c) rest

/-- JS `/\b(RFC|ISBN|PMID)\b/` from WSP.escapeWikiText (line 1130). -/
def urlTrig (s : List Char) : Bool :=
  wordOccursAux "RFC".toList none s ||
  wordOccursAux "ISBN".toList none s ||
  wordOccursAux "PMID".toList none s

/-- Characters of the class `[<>\[\]\-\+\|'!=#\*:;~{}]`. -/
def wtSpecialChar (c : Char) : Bool :=
  c = '<' || c = '>' || c = '[' || c = ']' || c = '-' || c = '+' ||
  c = '|' || c = apos || c = '!' || c = '=' || c = '#' || c = '*' ||
  c = ':' || c = ';' || c = '~' || c.toNat = 0x7b || c.toNat = 0x7d

/-- JS `/^[ \t][^\s]+|[<>\[\]\-\+\|'!=#\*:;~{}]/` from line 1136: leading
space-or-tab followed by a non-space, or any wikitext-special character. -/
def textNeedsCheck (s : List Char) : Bool :=
  (match s with
   | a :: b :: _ => (a = ' ' || a = '\t') && !isJsSpace b
   | _ => false) || s.any wtSpecialChar

/-- JS `/\{\{\{|\{\{|\}\}\}|\}\}/` from line 1151: any template or
template-arg brace pair. -/
def bracePat (s : List Char) : Bool :=
  containsSub "\x7b\x7b\x7b".toList s || containsSub "\x7b\x7b".toList s ||
  containsSub "\x7d\x7d\x7d".toList s || containsSub "\x7d\x7d".toList s

/-- JS `/\n./` from line 1157: a newline followed by a character that is not
a line terminator. -/
def hasNLDot : List Char → Bool
  | [] => false
  | c :: rest =>
    (c = '\n' && (match rest with | d :: _ => !isLineTerm d | [] => false)) ||
    hasNLDot rest

/-- JS `/~{3,5}/` from line 1158: any run of at least three tildes. -/
def hasTildesPat (s : List Char) : Bool := containsSub "~~~".toList s

/-- Helper for the `\[.*\]` alternative: a closing bracket later on the same
line (no line terminator in between). -/
def restHasCloseNoNL : List Char → Bool
  | [] => false
  | c :: rest => if c = ']' then true
                 else if isLineTerm c then false
                 else restHasCloseNoNL rest

/-- A `[` with a matching `]` later on the same line. -/
def hasBracketPairJS : List Char → Bool
  | [] => false
  | c :: rest => (c = '[' && restHasCloseNoNL rest) || hasBracketPairJS rest

/-- JS `/''|[<>]|\[.*\]|\]/` from line 1163. -/
def nonSolEscapePat (s : List Char) : Bool :=
  containsSub [apos, apos] s || s.any (fun c => c = '<' || c = '>') ||
  hasBracketPairJS s || s.any (· = ']')

/-- JS regex from line 1172: leading `[ \t#*:;=]`, or any of the characters
`<[]>|` apostrophe `!`, or four consecutive dashes. -/
def solEscapePat (s : List Char) : Bool :=
  (match s with
   | c :: _ => c = ' ' || c = '\t' || c = '#' || c = '*' || c = ':' ||
               c = ';' || c = '='
   | [] => false) ||
  s.any (fun c => c = '<' || c = '[' || c = ']' || c = '>' || c = '|' ||
                  c = apos || c = '!') ||
  containsSub "----".toList s

/-- JS `/(^ |\n )[^\s]+/` second alternative: `"\n "` followed by a
non-space character. -/
def nlSpaceNonSpace : List Char → Bool
  | [] => false
  | c :: rest =>
    (c = '\n' && (match rest with
                  | ' ' :: d :: _ => !isJsSpace d
                  | _ => false)) ||
    nlSpaceNonSpace rest

/-- JS `/(^ |\n )[^\s]+/` from line 1181: a space at the start of the string
or of a line, followed by non-space content (would trigger indent-pre). -/
def solSpaceTrigger (s : List Char) : Bool :=
  (match s with
   | ' ' :: d :: _ => !isJsSpace d
   | _ => false) || nlSpaceNonSpace s

/-! ## Literal-text fences (escapedText, line 1116) -/

/-- Is the string entirely a run of `\n` and `\r\n` units?  This is what the
trailing group `((?:\r?\n)*)$` of the escapedText regex can consume. -/
def isNLRun : List Char → Bool
  | [] => true
  | '\n' :: rest => isNLRun rest
  | '\r' :: '\n' :: rest => isNLRun rest
  | _ => false

/-- Split a string into (body, trailing-newline-run), at the earliest
position whose suffix is entirely `\r?\n` units; mirrors the group split of
the regex in escapedText (line 1117). -/
def splitTrailingNLs : List Char → List Char × List Char
  | [] => ([], [])
  | c :: rest =>
    if isNLRun (c :: rest) then ([], c :: rest)
    else
      let p := splitTrailingNLs rest
      (c :: p.1, p.2)

/-- The literal-text fence delimiters. -/
def nwOpen : List Char := "<nowiki>".toList
/-- Closing fence delimiter. -/
def nwClose : List Char := "</nowiki>".toList

/-- escapedText (ParserService.js line 1116): wrap everything but the
trailing newlines in a `nowiki` fence and re-append the newlines. -/
def escapedText (t : List Char) : List Char :=
  let p := splitTrailingNLs t
  nwOpen ++ p.1 ++ nwClose ++ p.2

/-- The replacement `text.replace(/<(\/?nowiki)>/g, ...)` from line 1187:
literal `nowiki` open and close tags become their HTML-entity forms. -/
def replaceNowiki : List Char → List Char
  | [] => []
  | '<' :: 'n' :: 'o' :: 'w' :: 'i' :: 'k' :: 'i' :: '>' :: rest =>
    "&lt;nowiki&gt;".toList ++ replaceNowiki rest
  | '<' :: '/' :: 'n' :: 'o' :: 'w' :: 'i' :: 'k' :: 'i' :: '>' :: rest =>
    "&lt;/nowiki&gt;".toList ++ replaceNowiki rest
  | c :: rest => c :: replaceNowiki rest

/-! ## The escape engine (WSP.escapeWikiText, lines 1121-1238)

The mini wikitext re-tokenizer (`WEHP.hasWikitextTokens`) drives the final
check; it is passed in as an oracle parameter `hwt sol text linksOnly` so
the control flow of escapeWikiText can be verified for every tokenizer
verdict.  The top of the `wteHandlerStack` (a context predicate on the
text) is likewise a parameter. -/

/-- JS `/^=.*=\n*$/` from line 1218 (the current-line heading-pair test):
after stripping trailing `\n` characters, the line starts and ends with `=`
with no line terminator in between. -/
def headingPairPat (s : List Char) : Bool :=
  let core := (s.reverse.dropWhile (· = '\n')).reverse
  2 ≤ core.length && core.head? = some '=' && core.getLast? = some '=' &&
  core.all (fun c => !isLineTerm c)

/-- JS regex at line 1228: one or two closing brackets followed by a
non-bracket or the end of string.  This matches exactly when a closing
bracket occurs anywhere in the string (the last one qualifies). -/
def closeBracketHit (s : List Char) : Bool := s.any (· = ']')

/-- The slice of serializer state consulted by WSP.escapeWikiText.
`wteHandler` is the predicate on top of `wteHandlerStack` (none when the
stack is empty or a null handler was pushed); the `cl` fields are
`state.currLine`. -/
structure EWTState where
  onStartOfLine : Bool
  emitNewlineOnNextToken : Bool
  wteHandler : Option (List Char → Bool)
  numPieces : Nat
  clProcessed : Bool
  clText : List Char
  clHasHeadingPair : Bool
  clHasBracketPair : Bool

/-- WSP.escapeWikiText (ParserService.js lines 1121-1238).  `hwt` is the
synchronous mini-tokenizer check `hasWikitextTokens(state, sol, text,
linksOnly)`.  Returns the text to emit (fenced or raw). -/
def escapeWikiText (hwt : Bool → List Char → Bool → Bool)
    (st : EWTState) (text : List Char) : List Char :=
  let fullCheckNeeded := urlTrig text
  -- line 1136: quick check for the common case
  if !fullCheckNeeded && !textNeedsCheck text then text
  -- line 1142: context-specific escape handler
  else if (match st.wteHandler with
           | some h => h text
           | none => false) then escapedText text
  -- line 1151: template and template-arg markers escape unconditionally
  else if bracePat text then escapedText text
  else
    let sol := st.onStartOfLine || st.emitNewlineOnNextToken
    let hasNewlines := hasNLDot text
    let hasTildes := hasTildesPat text
    -- line 1163: quick non-sol check
    if !fullCheckNeeded && !hasNewlines && !hasTildes &&
       (!sol && !nonSolEscapePat text) then text
    -- line 1172: quick sol check
    else if !fullCheckNeeded && !hasNewlines && !hasTildes &&
            (sol && !solEscapePat text) then text
    -- line 1181: conservative escape of indent-pre triggers in sol position
    else if sol && solSpaceTrigger text then escapedText text
    else
      -- line 1187: escape literal nowiki tags
      let text2 := replaceNowiki text
      -- line 1190: tokenizer-driven check
      if hwt sol text2 false || hasTildes then escapedText text2
      else if st.numPieces > 1 then
        -- lines 1193-1233: line-level analysis
        let hp := if st.clProcessed then st.clHasHeadingPair
                  else headingPairPat st.clText
        let bp := if st.clProcessed then st.clHasBracketPair
                  else hwt sol st.clText true
        if (hp && (match text2 with | '=' :: _ => true | _ => false)) ||
           (bp && closeBracketHit text2) then escapedText text2
        else text2
      else text2

/-! ## Tokens -/

/-- The constructor tags of the token model (pd.TagTk, pd.EndTagTk,
pd.SelfclosingTagTk, pd.CommentTk, plain strings, pd.NlTk, pd.EOFTk). -/
inductive TokKind where
  | tagTk
  | endTagTk
  | selfclosingTagTk
  | commentTk
  | textTk
  | nlTk
  | eofTk
deriving DecidableEq, Repr

/-- A token together with the dataAttribs fields the embedded handlers
consult.  Absent dataAttribs fields are `none` (for options) or the empty
string (for JS string fields tested by truthiness). -/
structure Tok where
  kind : TokKind
  name : String
  stx : Option String := none
deriving DecidableEq, Repr

/-- A start-tag token. -/
def mkTagTk (n : String) : Tok := { kind := .tagTk, name := n }
/-- An end-tag token. -/
def mkEndTagTk (n : String) : Tok := { kind := .endTagTk, name := n }

/-! ## Headings (openHeading line 1094, closeHeading line 1100) -/

/-- openHeading (line 1094): the start handler emits the delimiter. -/
def openHeading (v : String) : String := v

/-- closeHeading (line 1100): the end handler emits the delimiter, with an
empty nowiki pair in front when the heading is empty (the previous token is
the matching start tag). -/
def closeHeading (v : String) (prevToken : Tok) (token : Tok) : String :=
  if prevToken.kind = TokKind.tagTk ∧ prevToken.name = token.name then
    "<nowiki></nowiki>" ++ v
  else v

/-- The two chunks emitted for a childless heading element `name` with
wikitext delimiter `v`: the start handler runs with the start token, then
the end handler runs with the start token as `state.prevToken`. -/
def emptyHeadingOut (v : String) (name : String) : String :=
  openHeading v ++ closeHeading v (mkTagTk name) (mkEndTagTk name)

/-! ## The separator engine (emitSepChunk line 1031, emitSeparator line 1042) -/

/-- The separator kinds START_SEP, IE_SEP, END_SEP. -/
inductive SepType where
  | startSep
  | ieSep
  | endSep
deriving DecidableEq, Repr

/-- A dsr 4-tuple `[startOffset, endOffset, openWidth, closeWidth]`; each
slot may be null. -/
structure Dsr4 where
  sOff : Option Int
  eOff : Option Int
  openW : Option Int
  closeW : Option Int
deriving DecidableEq, Repr

/-- Indexing a dsr tuple (`dsr[0]` .. `dsr[3]`). -/
def dsrGet (d : Dsr4) : Nat → Option Int
  | 0 => d.sOff
  | 1 => d.eOff
  | 2 => d.openW
  | _ => d.closeW

/-- JS numeric coercion of a possibly-null addend (`null` coerces to 0 in
`+`/`-`). -/
def jsNum (o : Option Int) : Int := o.getD 0

/-- JS `String.prototype.substring`: clamp both indices to `[0, length]`,
swap when out of order, then slice. -/
def jsSubstring (src : List Char) (a b : Int) : List Char :=
  let n : Int := src.length
  let a' := min (max a 0) n
  let b' := min (max b 0) n
  let lo := (min a' b').toNat
  let hi := (max a' b').toNat
  (src.take hi).drop lo

/-- Scanner for the separator validation regex of line 1081: outside a
comment (`inComment = false`) only whitespace or a comment opener may
occur; inside a comment the scan runs to the first terminator.  A comment
left open at the end of the string fails the anchored match. -/
def sepScan : Bool → List Char → Bool
  | false, [] => true
  | true, [] => false
  | false, '<' :: '!' :: '-' :: '-' :: rest => sepScan true rest
  | false, c :: rest => if isJsSpace c then sepScan false rest else false
  | true, '-' :: '-' :: '>' :: rest => sepScan false rest
  | true, _ :: rest => sepScan true rest

/-- The separator validation regex from line 1081, a run of whitespace and
complete HTML comments anchored at both ends. -/
def isSepPattern (s : List Char) : Bool := sepScan false s

/-- The slice of serializer state read and written by the separator engine
(initialState lines 941-952). -/
structure SepState where
  pageSrc : Option (List Char)
  onNewline : Bool
  onStartOfLine : Bool
  bufferedSeparator : Option (List Char)
  separatorEmittedFromSrc : Bool

/-- emitSepChunk (line 1031): update the newline flags from the separator
content, emit it as a chunk, and clear the buffered separator.  Returns the
new state and the emitted chunks. -/
def emitSepChunk (st : SepState) (separator : List Char) :
    SepState × List (List Char) :=
  ({ st with
      onNewline := if separator.getLast? = some '\n' then true else st.onNewline,
      onStartOfLine := if separator.contains '\n' then true else st.onStartOfLine,
      bufferedSeparator := none },
   [separator])

/-- The dsr indices selected per separator kind (lines 1049-1064). -/
def sepDsrIndices : SepType → Nat × Nat
  | .startSep => (0, 0)
  | .ieSep => (1, 0)
  | .endSep => (1, 1)

/-- The source substring the separator engine would extract, when the
original source and both dsr slots are available (lines 1066-1079). -/
def sepExtract (st : SepState) (dsr1 dsr2 : Option Dsr4) (t : SepType) :
    Option (List Char) :=
  match st.pageSrc with
  | none => none
  | some src =>
    match dsr1 with
    | none => none
    | some d1 =>
      match dsrGet d1 (sepDsrIndices t).1 with
      | none => none
      | some v1 =>
        match dsr2 with
        | none => none
        | some d2 =>
          match dsrGet d2 (sepDsrIndices t).2 with
          | none => none
          | some v2 =>
            let i1 := v1 + (if t = SepType.startSep then jsNum d1.openW else 0)
            let i2 := v2 - (if t = SepType.endSep then jsNum d2.closeW else 0)
            some (jsSubstring src i1 i2)

/-- emitSeparator (lines 1042-1089): splice the separator from the original
source when the page source and both dsr endpoints are present and the
extracted span is whitespace/comments only; otherwise do nothing. -/
def emitSeparator (st : SepState) (dsr1 dsr2 : Option Dsr4) (t : SepType) :
    SepState × List (List Char) :=
  match sepExtract st dsr1 dsr2 t with
  | none => (st, [])
  | some separator =>
    if isSepPattern separator then
      let p := emitSepChunk st separator
      ({ p.1 with separatorEmittedFromSrc := true }, p.2)
    else (st, [])

/-! ## Text-token serialization (the String case of WSP._serializeToken,
lines 2630-2726) -/

/-- Modelled from the spec: `Util.escapeEntities` lives in
mediawiki.Util.js, which is not under src/; the spec says text tokens are
always HTML-entity-escaped, so ampersand and angle brackets become their
entity forms. -/
def escapeEntities (s : List Char) : List Char :=
  (s.map (fun c =>
    if c = '&' then "&amp;".toList
    else if c = '<' then "&lt;".toList
    else if c = '>' then "&gt;".toList
    else [c])).flatten

/-- The serializer-state slice consulted when serializing a text token. -/
structure TextTokState where
  pageSrc : Option (List Char)
  singleLineMode : Nat
  inNoWiki : Bool
  inHTMLPre : Bool
  ewt : EWTState

/-- The chunk emitted for a text token by WSP._serializeToken (case String,
lines 2630-2645, and the content processing at lines 2718-2726).  Text
tokens have the empty handler, so no start-of-line or end-of-line newlines
apply and no text transform is installed; `suppressOutput` stays false, so
the chunk passed to `chunkCB` is exactly the processed text. -/
def serializeTextToken (hwt : Bool → List Char → Bool → Bool)
    (st : TextTokState) (text : List Char) : List Char :=
  -- line 2632: always escape entities
  let res := escapeEntities text
  -- line 2634: outside nowiki and html-pre, also escape wikitext
  let res := if st.inNoWiki || st.inHTMLPre then res
             else escapeWikiText hwt st.ewt res
  -- lines 2718-2724: newline stripping in single-line mode happens only
  -- when there is no original page source (the handler of a text token is
  -- the empty object, so `handler.isTemplateSrc` is falsy)
  if st.pageSrc = none ∧ 0 < st.singleLineMode then
    res.filter (fun c => c != '\n')
  else res

/-! ## Newline flags and the link handler (C4)

initialState (lines 941-946) starts with both flags true, and the state
documentation (lines 894-899) says `onStartOfLine` is true whenever
`onNewline` is.  escapeWikiLinkContentString (lines 1571-1582) clears
`onStartOfLine` (and `emitNewlineOnNextToken`) without touching
`onNewline`. -/

/-- The newline-tracking slice of the serializer state. -/
structure SolState where
  onNewline : Bool
  onStartOfLine : Bool
  emitNewlineOnNextToken : Bool
deriving DecidableEq, Repr

/-- The flag pair of the frozen initialState (lines 945-946). -/
def initialSolState : SolState :=
  { onNewline := true, onStartOfLine := true, emitNewlineOnNextToken := false }

/-- The invariant claimed by the spec (and by the state documentation at
lines 894-899): `onNewline` implies `onStartOfLine`. -/
def solInvariant (st : SolState) : Prop :=
  st.onNewline = true → st.onStartOfLine = true

instance (st : SolState) : Decidable (solInvariant st) := by
  unfold solInvariant
  infer_instance

/-- The state effect of escapeWikiLinkContentString (lines 1571-1582): the
function clears `onStartOfLine` and `emitNewlineOnNextToken` because the
content will be preceded by the link-opening bracket text, pushes the
wikilink context predicate, escapes, and pops.  The net state effect on the
newline flags is exactly this update; `onNewline` is left as it was. -/
def escapeWikiLinkContentStateUpd (st : SolState) : SolState :=
  { st with onStartOfLine := false, emitNewlineOnNextToken := false }

/-- The flag update performed after a chunk `res` is emitted by
WSP._serializeToken (lines 2729-2737). -/
def tokenEmitFlagUpd (st : SolState) (res : List Char) (solTransparent : Bool) :
    SolState :=
  if res.getLast? = some '\r' || res.getLast? = some '\n' then
    { st with onNewline := true, onStartOfLine := true }
  else if res ≠ [] then
    { st with
        onNewline := false,
        onStartOfLine := if solTransparent then st.onStartOfLine else false }
  else st

/-! ## Meta page-property handler (lines 2142-2155) -/

/-- The match `argDict.property.match(/^mw\:PageProp\/(.*)$/)` (line 2143):
the property must start with the page-prop marker and the captured
remainder cannot contain a line terminator (`.` does not cross lines). -/
def pagePropName (property : List Char) : Option (List Char) :=
  if "mw:PageProp/".toList.isPrefixOf property &&
     (property.drop 12).all (fun c => !isLineTerm c) then
    some (property.drop 12)
  else none

/-- The `argDict.property` branch of the meta start handler (lines
2142-2155), reached when the token has no `typeof` attribute.  `property`
and `magicSrc` use the empty string for absent values (JS truthiness);
`htmlFallback` stands for `WSP._serializeHTMLTag(state, token)`, which runs
when `property` is falsy. -/
def metaPropHandle (property : List Char) (magicSrc : List Char)
    (htmlFallback : List Char) : List Char :=
  if property ≠ [] then
    match pagePropName property with
    | some name => if magicSrc ≠ [] then magicSrc else name
    | none => []
  else htmlFallback

/-! ## List-item handler (WSP._listItemHandler, lines 1276-1345) -/

/-- One frame of `state.listStack` (documentation at lines 886-892). -/
structure ListFrame where
  itemCount : Nat
  bullets : String
  itemBullet : String
deriving DecidableEq, Repr

/-- isRepeatToken (line 1278): the previous token is the closing tag of the
same item name. -/
def isRepeatToken (prevToken : Tok) (token : Tok) : Bool :=
  prevToken.kind == TokKind.endTagTk && prevToken.name == token.name

/-- isMultiLineDtDdPair (line 1283): this token is the `dd` of a multi-line
`dt`/`dd` pair. -/
def isMultiLineDtDdPair (prevTagToken : Tok) (token : Tok) : Bool :=
  token.name == "dd" && token.stx != some "row" &&
  prevTagToken.kind == TokKind.endTagTk && prevTagToken.name == "dt"

/-- The serializer-state slice consulted by the list-item handler.  The
head of `listStack` is the innermost (top) frame. -/
structure ListItemState where
  listStack : List ListFrame
  onStartOfLine : Bool
  prevToken : Tok
  prevTagToken : Tok

/-- WSP._listItemHandler (lines 1276-1345).  Returns the emitted bullet
text, the `startsLine` flag the handler sets on itself, and the updated
list stack. -/
def listItemHandler (bullet : String) (st : ListItemState) (token : Tok) :
    String × Bool × List ListFrame :=
  -- line 1304: bare list items push a recovery frame
  let stack0 := if st.listStack.isEmpty
                then [{ itemCount := 0, bullets := bullet, itemBullet := bullet }]
                else st.listStack
  match stack0 with
  | [] => (bullet, false, stack0)  -- unreachable: stack0 is nonempty
  | cur0 :: rest =>
    let cur := { cur0 with itemCount := cur0.itemCount + 1, itemBullet := bullet }
    if 1 < cur.itemCount ∧
       (st.onStartOfLine = true ∨ isRepeatToken st.prevToken token = true ∨
        isMultiLineDtDdPair st.prevTagToken token = true) then
      (cur.bullets ++ bullet, true, cur :: rest)
    else
      (bullet, false, cur :: rest)

/-! ## Table tags (WSP._serializeTableTag line 1436, tr handler line 1961) -/

/-- WSP._serializeTableTag (lines 1436-1445).  `endSymbol = none` models the
JS `null`; `sAttribs` is the result of WSP._serializeAttributes (a separate
function, passed in here so the handler is verified for every attribute
serialization). -/
def serializeTableTag (symbol : String) (endSymbol : Option String)
    (sAttribs : String) : String :=
  if sAttribs.length > 0 then
    symbol ++ " " ++ sAttribs ++ (match endSymbol with
                                  | some e => e
                                  | none => " |")
  else
    symbol ++ (match endSymbol with
               | some e => e
               | none => "")

/-- The tr start handler (lines 1961-1977).  `startTagSrc` uses the empty
string for an absent `dataAttribs.startTagSrc` (JS truthiness). -/
def trStartHandle (prevToken : Tok) (startTagSrc : String) (sAttribs : String) :
    String :=
  if prevToken.kind = TokKind.tagTk ∧ prevToken.name = "tbody" ∧
     startTagSrc = "" then
    ""
  else
    serializeTableTag (if startTagSrc = "" then "|-" else startTagSrc)
      (some "") sAttribs

/-! ## Figure handler (WSP.figureHandler, lines 1350-1433)

The DOM node is modelled as a tree; the `try`/`catch` around the img lookup
catches the null dereferences, which appear here as the `none` cases of
`figureLocateImg`.  `serializeChildrenToString` of the caption and the
wiki-config interpolation are passed in as parameters. -/

/-- A DOM node as seen by the figure handler: its node type, its `resource`
attribute (for the img), and its children. -/
inductive DNode where
  | mk (nodeType : Nat) (resource : Option String) (children : List DNode)

/-- Node type accessor. -/
def DNode.nodeType : DNode → Nat
  | .mk t _ _ => t

/-- Resource attribute accessor. -/
def DNode.resource : DNode → Option String
  | .mk _ r _ => r

/-- Children accessor. -/
def DNode.children : DNode → List DNode
  | .mk _ _ c => c

/-- The img lookup of figureHandler (lines 1355-1365):
`node.firstChild.firstChild` must exist and be an element node; every
failure (null firstChild, null grandchild, wrong node type) is caught and
leads to the empty-chunk early return. -/
def figureLocateImg (node : DNode) : Option DNode :=
  match node.children.head? with
  | none => none
  | some fc =>
    match fc.children.head? with
    | none => none
    | some img => if img.nodeType = 1 then some img else none

/-- The strip `(^\[:)|(\]$)` applied to the img resource (line 1370). -/
def stripResource (s : List Char) : List Char :=
  let s1 := if "[:".toList.isPrefixOf s then s.drop 2 else s
  if s1.getLast? = some ']' then s1.dropLast else s1

/-- JS string coercion of a nullable value in concatenation position. -/
def jsStr (o : Option String) : String := o.getD "null"

/-- The constant tables and collaborator functions the option loop uses:
`optNames` (localized option names, a missing key joins as the empty
string), the simple-option map, the reverse map for interpolated options,
and `replaceInterpolatedMagicWord`. -/
structure FigEnv where
  optNames : String → String
  simpleOptions : String → Option String
  rmOptions : String → Option String
  interpolate : String → String → String

/-- One iteration of the option loop (lines 1379-1420), threading the
pending width/height pair; returns the strings pushed and the new pair. -/
def figureOptStep (env : FigEnv) (captionSrc : String)
    (size : Option String × Option String) (k : String) (v : Option String) :
    List String × (Option String × Option String) :=
  if k = "width" then ([], (v, size.2))
  else if k = "height" then ([], (size.1, v))
  else
    -- flush a pending size one iteration later (lines 1396-1402)
    let flushed : List String :=
      match size.1 with
      | some w => [w ++ (match size.2 with
                         | some hgt => if hgt ≠ "" then "x" ++ hgt else ""
                         | none => "") ++ "px"]
      | none => []
    let size' := (none, size.2)
    let this : List String :=
      if k = "caption" then
        [match v with
         | none => captionSrc
         | some s => s]
      else if env.simpleOptions ("img_" ++ jsStr v) = some k then
        [env.optNames (jsStr v)]
      else
        match env.rmOptions k with
        | some canonical =>
          let short := if "img_".toList.isPrefixOf canonical.toList
                       then String.mk (canonical.toList.drop 4)
                       else canonical
          [env.interpolate (env.optNames short) (jsStr v)]
        | none => []   -- unknown option: warn and push nothing
    (flushed ++ this, size')

/-- The option loop over `dp.optionList` followed by the final size flush
(lines 1379-1430). -/
def figureOptBits (env : FigEnv) (captionSrc : String)
    (opts : List (String × Option String)) : List String :=
  let p := opts.foldl
    (fun (acc : List String × (Option String × Option String)) kv =>
      let s := figureOptStep env captionSrc acc.2 kv.1 kv.2
      (acc.1 ++ s.1, s.2))
    ([], (none, none))
  -- final flush when size is the last option (lines 1428-1430, truthiness)
  match p.2.1 with
  | some w =>
    if w ≠ "" then
      p.1 ++ [w ++ (match p.2.2 with
                    | some hgt => if hgt ≠ "" then "x" ++ hgt else ""
                    | none => "") ++ "px"]
    else p.1
  | none => p.1

/-- WSP.figureHandler (lines 1350-1433): the list of chunks passed to `cb`.
When no img can be located the catch block emits a single empty chunk and
returns; otherwise one file-link chunk is emitted. -/
def figureHandler (env : FigEnv) (captionSrc : String)
    (opts : List (String × Option String)) (node : DNode) : List String :=
  match figureLocateImg node with
  | none => [""]
  | some img =>
    let imgResource := String.mk (stripResource ((img.resource.getD "").toList))
    let outBits := imgResource :: figureOptBits env captionSrc opts
    ["[[" ++ String.intercalate "|" outBits ++ "]]"]

/-! ## Shared concrete inputs for witnesses and counterexamples -/

/-- A tokenizer oracle that reports no wikitext tokens. -/
def hwtNone : Bool → List Char → Bool → Bool := fun _ _ _ => false

/-- An escape-engine state with no context handler, not at start of line,
and a fresh current line. -/
def ewtBase : EWTState :=
  { onStartOfLine := false, emitNewlineOnNextToken := false,
    wteHandler := none, numPieces := 0, clProcessed := false,
    clText := [], clHasHeadingPair := false, clHasBracketPair := false }

/-! ## C1: empty headings -/

/-- C1 counterexample: the code serializes the empty heading `<h2></h2>` to
`==<nowiki></nowiki>==` (closeHeading, line 1105, emits an open/close
nowiki pair), not to `==<nowiki/>==` as the claim states. -/
theorem c1_empty_heading_counterexample :
    emptyHeadingOut "==" "h2" = "==<nowiki></nowiki>==" ∧
    emptyHeadingOut "==" "h2" ≠ "==<nowiki/>==" := by
  constructor
  · rfl
  · decide

/-- C1 (amended): for every empty heading (the previous token is the
matching start tag), the serialized output is the opening delimiter, an
empty literal-text fence written as `<nowiki></nowiki>`, and the closing
delimiter. -/
theorem c1_empty_heading_fence (v : String) (prevToken token : Tok)
    (h1 : prevToken.kind = TokKind.tagTk) (h2 : prevToken.name = token.name) :
    openHeading v ++ closeHeading v prevToken token =
      v ++ "<nowiki></nowiki>" ++ v := by
  simp [openHeading, closeHeading, h1, h2, String.append_assoc]

/-- C1 amended-theorem witness at the `<h2></h2>` input. -/
theorem c1_empty_heading_fence_witness :
    (mkTagTk "h2").kind = TokKind.tagTk ∧
    (mkTagTk "h2").name = (mkEndTagTk "h2").name ∧
    openHeading "==" ++ closeHeading "==" (mkTagTk "h2") (mkEndTagTk "h2") =
      "==" ++ "<nowiki></nowiki>" ++ "==" :=
  ⟨rfl, rfl, c1_empty_heading_fence "==" (mkTagTk "h2") (mkEndTagTk "h2") rfl rfl⟩

/-! ## C2: the separator engine emits iff splicing is possible -/

/-- C2: emitSeparator emits a separator chunk and sets
`separatorEmittedFromSrc` exactly when the page source is present, both dsr
tuples are present and non-null at the kind-selected indices, and the
extracted source span matches the whitespace-or-comment pattern; in every
other case it emits nothing and returns the state unchanged. -/
theorem c2_emitSeparator_iff (st : SepState) (dsr1 dsr2 : Option Dsr4)
    (t : SepType) :
    (((emitSeparator st dsr1 dsr2 t).2 ≠ [] ∧
      (emitSeparator st dsr1 dsr2 t).1.separatorEmittedFromSrc = true) ↔
      (∃ src d1 d2 v1 v2,
        st.pageSrc = some src ∧ dsr1 = some d1 ∧ dsr2 = some d2 ∧
        dsrGet d1 (sepDsrIndices t).1 = some v1 ∧
        dsrGet d2 (sepDsrIndices t).2 = some v2 ∧
        isSepPattern (jsSubstring src
          (v1 + (if t = SepType.startSep then jsNum d1.openW else 0))
          (v2 - (if t = SepType.endSep then jsNum d2.closeW else 0))) = true)) ∧
    ((emitSeparator st dsr1 dsr2 t).2 = [] →
      emitSeparator st dsr1 dsr2 t = (st, [])) := by
  constructor
  · cases hsrc : st.pageSrc with
    | none =>
      simp [emitSeparator, sepExtract, hsrc]
    | some src =>
      cases dsr1 with
      | none => simp [emitSeparator, sepExtract, hsrc]
      | some d1 =>
        cases h1 : dsrGet d1 (sepDsrIndices t).1 with
        | none => simp [emitSeparator, sepExtract, hsrc, h1]
        | some v1 =>
          cases dsr2 with
          | none => simp [emitSeparator, sepExtract, hsrc, h1]
          | some d2 =>
            cases h2 : dsrGet d2 (sepDsrIndices t).2 with
            | none => simp [emitSeparator, sepExtract, hsrc, h1, h2]
            | some v2 =>
              cases hp : isSepPattern (jsSubstring src
                  (v1 + (if t = SepType.startSep then jsNum d1.openW else 0))
                  (v2 - (if t = SepType.endSep then jsNum d2.closeW else 0))) with
              | false =>
                simp [emitSeparator, sepExtract, hsrc, h1, h2, hp]
              | true =>
                simp [emitSeparator, sepExtract, emitSepChunk, hsrc, h1, h2, hp]
  · intro hempty
    unfold emitSeparator at hempty ⊢
    cases hext : sepExtract st dsr1 dsr2 t with
    | none => simp
    | some sep =>
      rw [hext] at hempty
      by_cases hp : isSepPattern sep = true
      · simp [hp, emitSepChunk] at hempty
      · simp [hp]

/-- Concrete separator-engine state: page source `"ab \n cd"`. -/
def c2St : SepState :=
  { pageSrc := some "ab \n cd".toList, onNewline := false,
    onStartOfLine := false, bufferedSeparator := none,
    separatorEmittedFromSrc := false }

/-- dsr of the first node: ends at offset 2. -/
def c2D1 : Dsr4 := ⟨some 0, some 2, some 1, some 0⟩

/-- dsr of the second node: starts at offset 5. -/
def c2D2 : Dsr4 := ⟨some 5, some 7, some 0, some 0⟩

/-- C2 witness: between offsets 2 and 5 the source holds `" \n "`, which is
pure whitespace, so the inter-element separator is spliced and the flag is
set. -/
theorem c2_emitSeparator_witness :
    (emitSeparator c2St (some c2D1) (some c2D2) SepType.ieSep).2 ≠ [] ∧
    (emitSeparator c2St (some c2D1) (some c2D2)
      SepType.ieSep).1.separatorEmittedFromSrc = true :=
  (c2_emitSeparator_iff c2St (some c2D1) (some c2D2) SepType.ieSep).1.mpr
    ⟨"ab \n cd".toList, c2D1, c2D2, 2, 5, rfl, rfl, rfl, rfl, rfl, by decide⟩

/-! ## C3: newline stripping in single-line mode -/

/-- A text-token state in single-line mode with the original page source
available. -/
def c3StWithSrc : TextTokState :=
  { pageSrc := some "x".toList, singleLineMode := 1,
    inNoWiki := false, inHTMLPre := false, ewt := ewtBase }

/-- C3 counterexample: with `singleLineMode = 1` but the original page
source available, the text token `"a\nb"` is emitted with its newline
intact — the stripping at line 2720 is guarded by `!state.env.page.src`,
so it does not happen "regardless of whether original source is
available". -/
theorem c3_single_line_counterexample :
    0 < c3StWithSrc.singleLineMode ∧
    serializeTextToken hwtNone c3StWithSrc "a\nb".toList = "a\nb".toList ∧
    '\n' ∈ serializeTextToken hwtNone c3StWithSrc "a\nb".toList := by
  refine ⟨by decide, by decide, by decide⟩

/-- C3 (amended): while `singleLineMode > 0` and no original page source is
available, the chunk emitted for a text token contains no newline
character. -/
theorem c3_single_line_strips_newlines (hwt : Bool → List Char → Bool → Bool)
    (st : TextTokState) (text : List Char)
    (hsrc : st.pageSrc = none) (hslm : 0 < st.singleLineMode) :
    '\n' ∉ serializeTextToken hwt st text := by
  unfold serializeTextToken
  rw [if_pos ⟨hsrc, hslm⟩]
  intro hmem
  rcases List.mem_filter.mp hmem with ⟨-, hne⟩
  simp at hne

/-- A text-token state in single-line mode without page source. -/
def c3StNoSrc : TextTokState :=
  { pageSrc := none, singleLineMode := 1,
    inNoWiki := false, inHTMLPre := false, ewt := ewtBase }

/-- C3 amended-theorem witness: in sourceless single-line mode the newline
of `"a\nb"` is gone. -/
theorem c3_single_line_strips_newlines_witness :
    c3StNoSrc.pageSrc = none ∧ 0 < c3StNoSrc.singleLineMode ∧
    '\n' ∉ serializeTextToken hwtNone c3StNoSrc "a\nb".toList :=
  ⟨rfl, by decide,
    c3_single_line_strips_newlines hwtNone c3StNoSrc "a\nb".toList rfl (by decide)⟩

/-! ## C4: the onNewline implies onStartOfLine invariant -/

/-- C4: the claimed invariant `onNewline implies onStartOfLine` (also
promised by the state documentation at ParserService.js lines 894-899)
holds in the initial state but is broken by the state update of
escapeWikiLinkContentString (line 1576), which clears `onStartOfLine`
while leaving `onNewline` set — as happens when a wikilink is serialized at
the start of a document. -/
theorem c4_invariant_broken_by_link_handler :
    solInvariant initialSolState ∧
    (escapeWikiLinkContentStateUpd initialSolState).onNewline = true ∧
    (escapeWikiLinkContentStateUpd initialSolState).onStartOfLine = false ∧
    ¬ solInvariant (escapeWikiLinkContentStateUpd initialSolState) :=
  ⟨by decide, rfl, rfl, by decide⟩

/-! ## C5: nowiki replacement before fencing -/

/-- C5 counterexample: the text `"{{<nowiki>"` is fenced by the
template-brace check (line 1151), which runs before the nowiki replacement
at line 1187, so the emitted fence contains the raw inner open tag and is
not the fence of the replaced text. -/
theorem c5_nowiki_replacement_counterexample :
    escapeWikiText hwtNone ewtBase "\x7b\x7b<nowiki>".toList =
      nwOpen ++ "\x7b\x7b<nowiki>".toList ++ nwClose ∧
    containsSub nwOpen "\x7b\x7b<nowiki>".toList = true ∧
    escapeWikiText hwtNone ewtBase "\x7b\x7b<nowiki>".toList ≠
      nwOpen ++ replaceNowiki "\x7b\x7b<nowiki>".toList ++ nwClose :=
  ⟨by decide, by decide, by decide⟩

/-- C5 (amended): a text run fenced via the tokenizer-driven check (line
1190) has its literal nowiki tags entity-replaced before fencing; fences
produced by the earlier context-handler, template-brace, or sol-space
checks wrap the unreplaced text.  The hypotheses state that each earlier
branch of escapeWikiText declined and the tokenizer branch fences. -/
theorem c5_tokenizer_fence_replaced (hwt : Bool → List Char → Bool → Bool)
    (st : EWTState) (text : List Char)
    (h1 : (!urlTrig text && !textNeedsCheck text) = false)
    (h2 : (match st.wteHandler with
           | some h => h text
           | none => false) = false)
    (h3 : bracePat text = false)
    (h4 : (!urlTrig text && !hasNLDot text && !hasTildesPat text &&
           (!(st.onStartOfLine || st.emitNewlineOnNextToken) &&
            !nonSolEscapePat text)) = false)
    (h5 : (!urlTrig text && !hasNLDot text && !hasTildesPat text &&
           ((st.onStartOfLine || st.emitNewlineOnNextToken) &&
            !solEscapePat text)) = false)
    (h6 : ((st.onStartOfLine || st.emitNewlineOnNextToken) &&
           solSpaceTrigger text) = false)
    (h7 : (hwt (st.onStartOfLine || st.emitNewlineOnNextToken)
            (replaceNowiki text) false || hasTildesPat text) = true) :
    escapeWikiText hwt st text = escapedText (replaceNowiki text) := by
  unfold escapeWikiText
  simp only [h1, h2, h3, h4, h5, h6, h7, Bool.false_eq_true, if_false, if_true]

/-- C5 amended-theorem witness: `"a<nowiki>b~~~"` reaches the
tokenizer-driven branch (the tilde run forces the fence) and the emitted
fence wraps the entity-replaced text. -/
theorem c5_tokenizer_fence_replaced_witness :
    escapeWikiText hwtNone ewtBase "a<nowiki>b~~~".toList =
      escapedText (replaceNowiki "a<nowiki>b~~~".toList) :=
  c5_tokenizer_fence_replaced hwtNone ewtBase "a<nowiki>b~~~".toList
    (by decide) (by decide) (by decide) (by decide) (by decide) (by decide)
    (by decide)

/-! ## C6: page-property meta tokens -/

/-- C6: for a meta token (without `typeof`) whose property is
`mw:PageProp/<name>`, the handler emits `dataParsoid.magicSrc` when it is
present (nonempty, per JS truthiness) and otherwise the magic word `<name>`
captured from the property.  The name may not contain a line terminator
(the regex dot at line 2143 does not cross lines). -/
theorem c6_meta_pageprop (name magicSrc fb : List Char)
    (hn : name.all (fun c => !isLineTerm c) = true) :
    metaPropHandle ("mw:PageProp/".toList ++ name) magicSrc fb =
      (if magicSrc ≠ [] then magicSrc else name) := by
  unfold metaPropHandle pagePropName
  have hne : "mw:PageProp/".toList ++ name ≠ [] := by simp
  rw [if_pos hne]
  have hdrop : ("mw:PageProp/".toList ++ name).drop 12 = name := by
    have : ("mw:PageProp/".toList).length = 12 := by decide
    rw [← this, List.drop_left]
  have hpre : ("mw:PageProp/".toList).isPrefixOf
      ("mw:PageProp/".toList ++ name) = true := by
    simp [List.isPrefixOf_iff_prefix]
  simp only [hpre, hdrop, hn, Bool.and_self, if_true, if_pos]

/-- C6 witness: `mw:PageProp/notoc` with a recorded `magicSrc` emits the
`magicSrc`, and without one emits `notoc`. -/
theorem c6_meta_pageprop_witness :
    ("notoc".toList.all (fun c => !isLineTerm c) = true) ∧
    metaPropHandle ("mw:PageProp/".toList ++ "notoc".toList)
      "__NOTOC__".toList [] = "__NOTOC__".toList ∧
    metaPropHandle ("mw:PageProp/".toList ++ "notoc".toList)
      [] [] = "notoc".toList :=
  ⟨by decide,
   (c6_meta_pageprop "notoc".toList "__NOTOC__".toList [] (by decide)).trans
     (by decide),
   (c6_meta_pageprop "notoc".toList [] [] (by decide)).trans (by decide)⟩

/-! ## C7: list-item bullet emission -/

/-- C7: the list-item handler emits the full cumulative bullet text
(enclosing bullets plus the item bullet) exactly when the item is not the
first of its frame (items were already counted) and the state is at start
of line, or the previous token closes the same item name, or the token is
the `dd` of a multi-line `dt`/`dd` pair; otherwise it emits only the item
bullet.  A bare item (empty list stack) gets a fresh frame and hence only
its own bullet. -/
theorem c7_list_item_bullets (bullet : String) (st : ListItemState) (token : Tok) :
    (st.listStack = [] → (listItemHandler bullet st token).1 = bullet) ∧
    (∀ cur rest, st.listStack = cur :: rest →
      (listItemHandler bullet st token).1 =
        if 0 < cur.itemCount ∧
           (st.onStartOfLine = true ∨ isRepeatToken st.prevToken token = true ∨
            isMultiLineDtDdPair st.prevTagToken token = true)
        then cur.bullets ++ bullet
        else bullet) := by
  constructor
  · intro hnil
    simp [listItemHandler, hnil]
  · intro cur rest hcons
    have hne : ¬ st.listStack.isEmpty = true := by simp [hcons]
    unfold listItemHandler
    rw [if_neg hne, hcons]
    simp only []
    by_cases hcond : 0 < cur.itemCount ∧
        (st.onStartOfLine = true ∨ isRepeatToken st.prevToken token = true ∨
         isMultiLineDtDdPair st.prevTagToken token = true)
    · have h1 : 1 < cur.itemCount + 1 ∧
          (st.onStartOfLine = true ∨ isRepeatToken st.prevToken token = true ∨
           isMultiLineDtDdPair st.prevTagToken token = true) :=
        ⟨by omega, hcond.2⟩
      rw [if_pos h1, if_pos hcond]
    · have h1 : ¬(1 < cur.itemCount + 1 ∧
          (st.onStartOfLine = true ∨ isRepeatToken st.prevToken token = true ∨
           isMultiLineDtDdPair st.prevTagToken token = true)) := by
        intro hc
        exact hcond ⟨by omega, hc.2⟩
      rw [if_neg h1, if_neg hcond]

/-- C7 witness: the second item of a nested list at start of line receives
the full cumulative bullet text. -/
theorem c7_list_item_bullets_witness :
    ({ listStack := [{ itemCount := 1, bullets := "**", itemBullet := "*" }],
       onStartOfLine := true, prevToken := mkTagTk "ul",
       prevTagToken := mkTagTk "ul" } : ListItemState).listStack =
      { itemCount := 1, bullets := "**", itemBullet := "*" } :: [] ∧
    (listItemHandler "*"
      { listStack := [{ itemCount := 1, bullets := "**", itemBullet := "*" }],
        onStartOfLine := true, prevToken := mkTagTk "ul",
        prevTagToken := mkTagTk "ul" } (mkTagTk "li")).1 = "**" ++ "*" :=
  ⟨rfl,
   ((c7_list_item_bullets "*" _ (mkTagTk "li")).2 _ [] rfl).trans (by decide)⟩

/-! ## C8: tr start-tag emission -/

/-- A nonempty string has positive length. -/
theorem str_length_pos (s : String) (h : s ≠ "") : 0 < s.length := by
  cases s with
  | mk data =>
    cases data with
    | nil => simp at h
    | cons c cs =>
      show 0 < (c :: cs).length
      simp

/-- A string of positive length is nonempty. -/
theorem str_ne_empty (s : String) (h : 0 < s.length) : s ≠ "" := by
  intro hc
  rw [hc] at h
  simp at h

/-- serializeTableTag with attributes present. -/
theorem serializeTableTag_attrs (symbol e a : String) (ha : 0 < a.length) :
    serializeTableTag symbol (some e) a = symbol ++ " " ++ a ++ e := by
  unfold serializeTableTag
  rw [if_pos ha]

/-- serializeTableTag with no attributes. -/
theorem serializeTableTag_noattrs (symbol e a : String) (ha : ¬ 0 < a.length) :
    serializeTableTag symbol (some e) a = symbol ++ e := by
  unfold serializeTableTag
  rw [if_neg ha]

/-- C8: the tr start handler emits the empty string exactly when the
previous token is the tbody start tag and no `startTagSrc` was recorded;
otherwise it emits `startTagSrc` (or the synthesized `|-`) alone when there
are no serialized attributes, and with the serialized attributes appended
when there are. -/
theorem c8_tr_start (prevToken : Tok) (startTagSrc sAttribs : String) :
    ((trStartHandle prevToken startTagSrc sAttribs = "") ↔
      (prevToken.kind = TokKind.tagTk ∧ prevToken.name = "tbody" ∧
       startTagSrc = "")) ∧
    (¬(prevToken.kind = TokKind.tagTk ∧ prevToken.name = "tbody" ∧
       startTagSrc = "") →
      trStartHandle prevToken startTagSrc sAttribs =
        (if 0 < sAttribs.length
         then (if startTagSrc = "" then "|-" else startTagSrc) ++ " " ++ sAttribs
         else (if startTagSrc = "" then "|-" else startTagSrc))) := by
  by_cases hc : prevToken.kind = TokKind.tagTk ∧ prevToken.name = "tbody" ∧
      startTagSrc = ""
  · constructor
    · simp [trStartHandle, hc]
    · intro hnc
      exact absurd hc hnc
  · have hres : trStartHandle prevToken startTagSrc sAttribs =
        serializeTableTag (if startTagSrc = "" then "|-" else startTagSrc)
          (some "") sAttribs := by
      simp [trStartHandle, hc]
    have hsym : (if startTagSrc = "" then "|-" else startTagSrc) ≠ "" := by
      by_cases hs : startTagSrc = ""
      · simp [hs]
      · simp [hs]
    constructor
    · rw [hres]
      by_cases ha : 0 < sAttribs.length
      · rw [serializeTableTag_attrs _ _ _ ha, String.append_empty]
        constructor
        · intro hemp
          have hlen : 0 < ((if startTagSrc = "" then "|-" else startTagSrc) ++
              " " ++ sAttribs).length := by
            rw [String.length_append, String.length_append]
            have h1 := str_length_pos _ hsym
            have h2 : (" " : String).length = 1 := rfl
            omega
          exact absurd hemp (str_ne_empty _ hlen)
        · intro h
          exact absurd h hc
      · rw [serializeTableTag_noattrs _ _ _ ha, String.append_empty]
        constructor
        · intro hemp
          exact absurd hemp hsym
        · intro h
          exact absurd h hc
    · intro _
      rw [hres]
      by_cases ha : 0 < sAttribs.length
      · rw [serializeTableTag_attrs _ _ _ ha, String.append_empty, if_pos ha]
      · rw [serializeTableTag_noattrs _ _ _ ha, String.append_empty, if_neg ha]

/-- C8 witness: an implicit first row (previous token is the tbody start,
no recorded source) emits nothing, while a later row with attributes emits
the `|-` delimiter followed by them. -/
theorem c8_tr_start_witness :
    trStartHandle (mkTagTk "tbody") "" "style=x" = "" ∧
    trStartHandle (mkEndTagTk "tr") "" "style=x" = "|-" ++ " " ++ "style=x" :=
  ⟨(c8_tr_start (mkTagTk "tbody") "" "style=x").1.mpr ⟨rfl, rfl, rfl⟩,
   ((c8_tr_start (mkEndTagTk "tr") "" "style=x").2 (by decide)).trans (by decide)⟩

/-! ## C9: malformed figures -/

/-- C9: whenever no img element can be located inside a figure (the first
child of the first child is absent or is not an element node), the figure
handler emits exactly one empty chunk — the caught exception path of lines
1355-1365 — and serialization continues. -/
theorem c9_figure_no_img (env : FigEnv) (captionSrc : String)
    (opts : List (String × Option String)) (node : DNode)
    (h : figureLocateImg node = none) :
    figureHandler env captionSrc opts node = [""] := by
  unfold figureHandler
  rw [h]

/-- C9 witness: a childless figure node yields the single empty chunk. -/
theorem c9_figure_no_img_witness :
    figureLocateImg (DNode.mk 1 none []) = none ∧
    figureHandler
      { optNames := fun _ => "", simpleOptions := fun _ => none,
        rmOptions := fun _ => none, interpolate := fun _ _ => "" }
      "cap" [] (DNode.mk 1 none []) = [""] :=
  ⟨rfl,
   c9_figure_no_img
     { optNames := fun _ => "", simpleOptions := fun _ => none,
       rmOptions := fun _ => none, interpolate := fun _ _ => "" }
     "cap" [] (DNode.mk 1 none []) rfl⟩

/-! ## C10: the caller's DOM survives a selser-less serializeDOM call

WSP.serializeDOM (line 3040) deep-clones the input node when no `selser`
argument is given, because WSP.preprocessDOM (line 2857) and the html-pre
patch of WSP._serializeDOM (lines 3404-3423) mutate the DOM.  To state the
frame property the DOM is modelled as an arena heap of node records
addressed by numeric ids; mutation writes a slot, `cloneNode(true)` copies
a subtree into fresh slots.  The theorem shows every slot that existed
before the call is unchanged after the clone, the preprocessing pass, and
the walk-time patches. -/

/-- A DOM node record: tag name (lowercase), numeric node type (1 element,
3 text, 8 comment), character data, attributes, and child ids. -/
structure DomRec where
  name : String
  nodeType : Nat
  textData : String
  attrs : List (String × String)
  children : List Nat

instance : Inhabited DomRec :=
  ⟨{ name := "", nodeType := 0, textData := "", attrs := [], children := [] }⟩

/-- The arena heap: `size` is the next fresh id; `mem` maps ids to records. -/
structure Heap where
  size : Nat
  mem : Nat → Option DomRec

/-- Overwrite one slot. -/
def Heap.set (h : Heap) (i : Nat) (r : DomRec) : Heap :=
  { h with mem := fun j => if j = i then some r else h.mem j }

/-- Allocate a fresh node; returns the heap and the new id. -/
def Heap.alloc (h : Heap) (r : DomRec) : Heap × Nat :=
  ({ size := h.size + 1,
     mem := fun j => if j = h.size then some r else h.mem j },
   h.size)

/-- Read a record (the default record for dangling ids). -/
def recOf (h : Heap) (i : Nat) : DomRec := (h.mem i).getD default

/-- Node name. -/
def nameOf (h : Heap) (i : Nat) : String := (recOf h i).name
/-- Node type. -/
def typeOf (h : Heap) (i : Nat) : Nat := (recOf h i).nodeType
/-- Character data. -/
def dataOf (h : Heap) (i : Nat) : String := (recOf h i).textData
/-- Child ids. -/
def childrenOf (h : Heap) (i : Nat) : List Nat := (recOf h i).children

/-- Attribute lookup. -/
def attrOf (h : Heap) (i : Nat) (k : String) : Option String :=
  (((recOf h i).attrs).find? (fun kv => kv.1 == k)).map (·.2)

/-- `node.firstChild`. -/
def firstChild (h : Heap) (i : Nat) : Option Nat := (childrenOf h i).head?

/-- The element after `c` in a sibling list. -/
def listAfter : List Nat → Nat → Option Nat
  | [], _ => none
  | a :: rest, c => if a = c then rest.head? else listAfter rest c

/-- The element before `c` in a sibling list. -/
def listBefore : List Nat → Nat → Option Nat
  | [], _ => none
  | a :: rest, c =>
    if rest.head? = some c then some a else listBefore rest c

/-- `child.nextSibling` within parent `p`. -/
def nextSib (h : Heap) (p c : Nat) : Option Nat := listAfter (childrenOf h p) c
/-- `child.previousSibling` within parent `p`. -/
def prevSib (h : Heap) (p c : Nat) : Option Nat := listBefore (childrenOf h p) c

/-- `parent.removeChild(c)`. -/
def removeChild (h : Heap) (p c : Nat) : Heap :=
  h.set p { recOf h p with children := (childrenOf h p).erase c }

/-- Replace the character data of a node. -/
def setTextData (h : Heap) (i : Nat) (s : String) : Heap :=
  h.set i { recOf h i with textData := s }

/-- Insert `x` before `r` in a sibling list (append when `r` is absent,
matching `insertBefore(x, null)`). -/
def insertListBefore : List Nat → Nat → Nat → List Nat
  | [], x, _ => [x]
  | a :: rest, x, r =>
    if a = r then x :: a :: rest else a :: insertListBefore rest x r

/-- Positioned insertion into a sibling list. -/
def insertIdBefore (l : List Nat) (x : Nat) (ref : Option Nat) : List Nat :=
  match ref with
  | none => l ++ [x]
  | some r => insertListBefore l x r

/-- `parent.insertBefore(x, ref)` for a node not currently in the list. -/
def insertChildBefore (h : Heap) (p x : Nat) (ref : Option Nat) : Heap :=
  h.set p { recOf h p with children := insertIdBefore (childrenOf h p) x ref }

/-- `parent.insertBefore(x, ref)` for a node already in the list (a DOM
move: the node leaves its old position; inserting a node before itself is
a no-op). -/
def moveChildBefore (h : Heap) (p x : Nat) (ref : Option Nat) : Heap :=
  if ref = some x then h
  else h.set p
    { recOf h p with
        children := insertIdBefore ((childrenOf h p).erase x) x ref }

/-- Modelled from the spec: DU.isBlockNode lives in mediawiki.DOMUtils.js,
which is not under src/; section 4.6 of the spec fixes the block-element
list (body, div, p, headings, lists, table, tr, td, th, pre, hr,
blockquote, figure, figcaption, form, fieldset). -/
def isBlockName (s : String) : Bool :=
  ["body", "div", "p", "h1", "h2", "h3", "h4", "h5", "h6",
   "ul", "ol", "dl", "li", "dt", "dd", "table", "tbody", "tr", "td", "th",
   "pre", "hr", "blockquote", "figure", "figcaption", "form",
   "fieldset"].contains s

/-- Is the node at `i` a block element? -/
def isBlockAt (h : Heap) (i : Nat) : Bool := isBlockName (nameOf h i)

/-- Modelled from the spec: DU.isMarkerMeta (mediawiki.DOMUtils.js, not
under src/) — a meta element whose `typeof` equals the marker type. -/
def isMarkerMeta (h : Heap) (i : Nat) (t : String) : Bool :=
  nameOf h i == "meta" && attrOf h i "typeof" == some t

/-- Modelled from the spec: DU.isNodeOfType (mediawiki.DOMUtils.js, not
under src/) — name and `typeof` both match. -/
def isNodeOfType (h : Heap) (i : Nat) (nm t : String) : Bool :=
  nameOf h i == nm && attrOf h i "typeof" == some t

/-- Modelled from the spec: DU.hasElementChild (mediawiki.DOMUtils.js, not
under src/). -/
def hasElementChild (h : Heap) (i : Nat) : Bool :=
  (childrenOf h i).any (fun c => typeOf h c == 1)

/-- `str.match(/^\s+$/)`: nonempty all-whitespace text. -/
def isWsOnly (s : String) : Bool :=
  !s.toList.isEmpty && s.toList.all isJsSpace

/-- `str.replace(/\n+$/, '')`. -/
def stripTrailingNLs (s : String) : String :=
  String.mk ((s.toList.reverse.dropWhile (· = '\n')).reverse)

/-- `str.replace(/^\n+/, '')`. -/
def stripLeadingNLs (s : String) : String :=
  String.mk (s.toList.dropWhile (· = '\n'))

/-- The separator meta element created by setupSeparator (lines
2861-2863). -/
def sepMetaRec (sepText : List String) : DomRec :=
  { name := "meta", nodeType := 1, textData := "",
    attrs := [("typeof", "mw:Separator"), ("data-sep", String.join sepText)],
    children := [] }

/-- setupSeparator (lines 2859-2875): allocate the `mw:Separator` meta
carrying the separator text, insert it after `nodeA` (or before
`nodeB.previousSibling` when `nodeA` is null), and delete the separator
nodes.  All children involved belong to `parent`, the node being
preprocessed. -/
def setupSeparator (h : Heap) (parent : Nat) (nodeA nodeB : Option Nat)
    (sepNodes : List Nat) (sepText : List String) : Heap :=
  let p := h.alloc (sepMetaRec sepText)
  let h1 := p.1
  let metaId := p.2
  let h2 :=
    match nodeA with
    | some a => insertChildBefore h1 parent metaId (nextSib h1 parent a)
    | none =>
      match nodeB with
      | some b => insertChildBefore h1 parent metaId (prevSib h1 parent b)
      | none => h1
  sepNodes.foldl (fun hh n => removeChild hh parent n) h2

/-- The text-coalescing inner loop of preprocessDOM (lines 2924-2929):
consume the following run of text siblings, recording their data and
removing them. -/
def coalesceRun (fuel : Nat) (h : Heap) (parent : Nat) (next : Option Nat)
    (buf : List String) : Heap × Option Nat × List String :=
  match fuel with
  | 0 => (h, next, buf)
  | f + 1 =>
    match next with
    | none => (h, none, buf)
    | some n =>
      if typeOf h n = 3 then
        let nn := nextSib h parent n
        let d := dataOf h n
        coalesceRun f (removeChild h parent n) parent nn (buf ++ [d])
      else (h, some n, buf)

/-- The separator-extraction loop of preprocessDOM (lines 2955-3032).
`stalePrev` is the leftover `prev` variable of the first loop, which the
sourceless leading-newline test at line 2983 reads without updating. -/
def ppLoop2 (fuel : Nat) (haveOrigSrc : Bool) (h : Heap) (node : Nat)
    (child : Option Nat) (stalePrev : Option Nat) (prevSentinel : Option Nat)
    (wait : Bool) (sepNodes : List Nat) (sepText : List String) : Heap :=
  match fuel with
  | 0 => h
  | f + 1 =>
    match child with
    | none =>
      -- line 3030: flush a trailing separator run
      match prevSentinel with
      | some a =>
        if sepNodes ≠ [] then setupSeparator h node (some a) none sepNodes sepText
        else h
      | none => h
    | some c =>
      let next := nextSib h node c
      let ty := typeOf h c
      if ty = 3 ∧ dataOf h c = "" then
        -- lines 2967-2971: delete empty text nodes
        ppLoop2 f haveOrigSrc (removeChild h node c) node next stalePrev
          prevSentinel wait sepNodes sepText
      else if !haveOrigSrc then
        -- lines 2973-2986: strip syntactic newlines next to block nodes
        let h1 :=
          if ty = 3 then
            let str := dataOf h c
            let h1a :=
              if str.toList.getLast? = some '\n' ∧
                 (match next with
                  | none => true
                  | some nx => isBlockAt h nx) = true then
                setTextData h c (stripTrailingNLs str)
              else h
            if str.toList.head? = some '\n' ∧
               (match stalePrev with
                | none => true
                | some pv => isBlockAt h1a pv) = true then
              setTextData h1a c (stripLeadingNLs str)
            else h1a
          else h
        ppLoop2 f haveOrigSrc h1 node next stalePrev prevSentinel wait
          sepNodes sepText
      else
        -- lines 2988-3024: collect whitespace/comment runs into separators
        if ty = 3 then
          let str := dataOf h c
          if !wait && isWsOnly str then
            ppLoop2 f haveOrigSrc h node next stalePrev prevSentinel wait
              (sepNodes ++ [c]) (sepText ++ [str])
          else
            ppLoop2 f haveOrigSrc h node next stalePrev none true
              sepNodes sepText
        else if ty = 8 then
          if !wait then
            ppLoop2 f haveOrigSrc h node next stalePrev prevSentinel wait
              (sepNodes ++ [c]) (sepText ++ ["<!--" ++ dataOf h c ++ "-->"])
          else
            ppLoop2 f haveOrigSrc h node next stalePrev prevSentinel wait
              sepNodes sepText
        else if ty = 1 then
          if !wait && isMarkerMeta h c "mw:DiffMarker" then
            -- line 3012: float the diff marker left to the previous sentinel
            let ref := match prevSentinel with
                       | some p => nextSib h node p
                       | none => firstChild h node
            ppLoop2 f haveOrigSrc (moveChildBefore h node c ref) node next
              stalePrev (some c) wait sepNodes sepText
          else
            let h1 := if !wait && !sepNodes.isEmpty then
                        setupSeparator h node prevSentinel (some c) sepNodes sepText
                      else h
            ppLoop2 f haveOrigSrc h1 node next stalePrev (some c) false [] []
        else
          ppLoop2 f haveOrigSrc h node next stalePrev prevSentinel wait
            sepNodes sepText

mutual

/-- WSP.preprocessDOM (lines 2857-3035).  The `meta` branch (lines
2877-2903) only populates `state.tplAttrs` and reads the DOM, so it leaves
the heap unchanged.  Other nodes run the descend/coalesce loop over their
children and then, unless inside a pre or an entity span (or, with
original source, without an element child), the separator-extraction
loop. -/
def preprocessNode (fuel : Nat) (haveOrigSrc inPre : Bool) (h : Heap)
    (node : Nat) : Heap :=
  match fuel with
  | 0 => h
  | f + 1 =>
    if nameOf h node = "meta" then h
    else
      let r := ppLoop1 f haveOrigSrc inPre h node (firstChild h node) none
      let h1 := r.1
      let stalePrev := r.2
      if !inPre && !isNodeOfType h1 node "span" "mw:Entity" &&
         (!haveOrigSrc || hasElementChild h1 node) then
        ppLoop2 f haveOrigSrc h1 node (firstChild h1 node) stalePrev none
          false [] []
      else h1

/-- The descend-and-coalesce loop of preprocessDOM (lines 2909-2942):
record the live next and previous siblings, recurse into the child, then
coalesce a following run of text siblings and drop the child if its data
ended up empty.  Returns the heap and the final value of the `prev`
variable. -/
def ppLoop1 (fuel : Nat) (haveOrigSrc inPre : Bool) (h : Heap) (node : Nat)
    (child : Option Nat) (prev : Option Nat) : Heap × Option Nat :=
  match fuel with
  | 0 => (h, prev)
  | f + 1 =>
    match child with
    | none => (h, prev)
    | some c =>
      let next0 := nextSib h node c
      let prevC := prevSib h node c
      let childIsPre := nameOf h c = "pre"
      let h1 := preprocessNode f haveOrigSrc (inPre || childIsPre) h c
      if typeOf h1 c = 3 then
        let q := coalesceRun f h1 node next0 [dataOf h1 c]
        let h2 := q.1
        let next1 := q.2.1
        let buf := q.2.2
        let h3 := if 1 < buf.length then setTextData h2 c (String.join buf)
                  else h2
        let h4 := if dataOf h3 c = "" then removeChild h3 node c else h3
        ppLoop1 f haveOrigSrc inPre h4 node next1 prevC
      else
        ppLoop1 f haveOrigSrc inPre h1 node next0 prevC

end

/-- The leading line terminator captured by `/^(\r\n|\r|\n)/`. -/
def leadNL (s : String) : Option String :=
  match s.toList with
  | '\r' :: '\n' :: _ => some "\r\n"
  | '\r' :: _ => some "\r"
  | '\n' :: _ => some "\n"
  | _ => none

/-- A fresh text node holding `s` (`document.createTextNode`). -/
def textRec (s : String) : DomRec :=
  { name := "#text", nodeType := 3, textData := s, attrs := [],
    children := [] }

/-- The html-pre patch of WSP._serializeDOM (lines 3404-3423): duplicate a
leading newline of the first text child, or re-prepend the recorded
stripped newline. -/
def htmlPrePatch (h : Heap) (node : Nat) (strippedNL : String) : Heap :=
  match firstChild h node with
  | some fc =>
    if typeOf h fc = 3 then
      let d := dataOf h fc
      match leadNL d with
      | some m => setTextData h fc (m ++ d)
      | none =>
        if strippedNL ≠ "" then setTextData h fc (strippedNL ++ d) else h
    else
      if strippedNL ≠ "" then
        let p := h.alloc (textRec strippedNL)
        insertChildBefore p.1 node p.2 (some fc)
      else h
  | none =>
    if strippedNL ≠ "" then
      let p := h.alloc (textRec strippedNL)
      insertChildBefore p.1 node p.2 none
    else h

/-- The DOM writes of the recursive walk WSP._serializeDOM (line 3314):
the only statements that mutate the DOM during the walk are the html-pre
patch (applied to html-syntax pre elements); token emission reads the tree.
`stxHtml` and `strippedNL` stand for the JSON-decoded data-parsoid fields
consulted at lines 3404 and 3415.  Processes a worklist depth-first. -/
def walkPatchList (stxHtml : DomRec → Bool) (strippedNL : DomRec → String) :
    Nat → Heap → List Nat → Heap
  | 0, h, _ => h
  | _ + 1, h, [] => h
  | f + 1, h, node :: rest =>
    let h1 := if nameOf h node = "pre" && stxHtml (recOf h node) then
                htmlPrePatch h node (strippedNL (recOf h node))
              else h
    let h2 := walkPatchList stxHtml strippedNL f h1 (childrenOf h1 node)
    walkPatchList stxHtml strippedNL f h2 rest

/-- `node.cloneNode(true)` (line 3054): deep-copy the subtree into fresh
slots; returns the heap and the clone's root id. -/
def cloneSub (fuel : Nat) (h : Heap) (i : Nat) : Heap × Nat :=
  match fuel with
  | 0 => h.alloc default
  | f + 1 =>
    let r := recOf h i
    let p := r.children.foldl
      (fun (acc : Heap × List Nat) c =>
        let q := cloneSub f acc.1 c
        (q.1, acc.2 ++ [q.2]))
      (h, [])
    p.1.alloc { r with children := p.2 }

/-- The DOM-mutating phase of WSP.serializeDOM (lines 3040-3088): without a
selser argument the input node is deep-cloned first (line 3054), then
preprocessDOM runs (line 3065) and the walk applies its html-pre patches;
in selser mode the caller passes an already-cloned DOM and no clone is
taken.  Returns the resulting heap and the root that was processed. -/
def serializeDOMPrepare (stxHtml : DomRec → Bool) (strippedNL : DomRec → String)
    (fuel : Nat) (selser : Bool) (haveOrigSrc : Bool) (h : Heap) (node : Nat) :
    Heap × Nat :=
  if selser then
    let h1 := preprocessNode fuel haveOrigSrc false h node
    (walkPatchList stxHtml strippedNL fuel h1 [node], node)
  else
    let p := cloneSub fuel h node
    let h1 := preprocessNode fuel haveOrigSrc false p.1 p.2
    (walkPatchList stxHtml strippedNL fuel h1 [p.2], p.2)

/-! ### Frame-property infrastructure -/

/-- All heap slots below `N` are unchanged between `h` and `h'`. -/
def Preserved (N : Nat) (h h' : Heap) : Prop :=
  ∀ i, i < N → h'.mem i = h.mem i

/-- The region at or above `N` is self-contained: at least `N` slots are in
use and every child pointer of a node at or above `N` stays at or above
`N`. -/
def Closed (N : Nat) (h : Heap) : Prop :=
  N ≤ h.size ∧ ∀ i, N ≤ i → ∀ c ∈ (recOf h i).children, N ≤ c

/-- Reflexivity of preservation. -/
theorem preserved_refl (N : Nat) (h : Heap) : Preserved N h h :=
  fun _ _ => rfl

/-- Transitivity of preservation. -/
theorem preserved_trans {N : Nat} {h1 h2 h3 : Heap}
    (p : Preserved N h1 h2) (q : Preserved N h2 h3) : Preserved N h1 h3 :=
  fun i hi => (q i hi).trans (p i hi)

/-- Writing at or above `N` preserves the slots below. -/
theorem set_preserved {N : Nat} (h : Heap) {i : Nat} (r : DomRec)
    (hi : N ≤ i) : Preserved N h (h.set i r) := by
  intro j hj
  have hne : j ≠ i := by omega
  simp [Heap.set, hne]

/-- Reading an untouched slot after a write. -/
theorem recOf_set_ne (h : Heap) (i : Nat) (r : DomRec) (j : Nat)
    (hne : j ≠ i) : recOf (h.set i r) j = recOf h j := by
  simp [recOf, Heap.set, hne]

/-- Reading the written slot. -/
theorem recOf_set_eq (h : Heap) (i : Nat) (r : DomRec) :
    recOf (h.set i r) i = r := by
  simp [recOf, Heap.set]

/-- Writing a record whose children stay in the region keeps it closed. -/
theorem set_closed {N : Nat} {h : Heap} (hc : Closed N h) {i : Nat}
    {r : DomRec} (hi : N ≤ i) (hr : ∀ c ∈ r.children, N ≤ c) :
    Closed N (h.set i r) := by
  refine ⟨hc.1, ?_⟩
  intro j hj c hmem
  by_cases hji : j = i
  · subst hji
    rw [recOf_set_eq] at hmem
    exact hr c hmem
  · rw [recOf_set_ne _ _ _ _ hji] at hmem
    exact hc.2 j hj c hmem

/-- Allocation preserves the slots below `N`. -/
theorem alloc_preserved {N : Nat} {h : Heap} (hc : Closed N h) (r : DomRec) :
    Preserved N h (h.alloc r).1 := by
  intro j hj
  have hne : j ≠ h.size := by
    have := hc.1
    omega
  simp [Heap.alloc, hne]

/-- Allocation of an in-region record keeps the region closed, and the new
id lies in the region. -/
theorem alloc_closed {N : Nat} {h : Heap} (hc : Closed N h) {r : DomRec}
    (hr : ∀ c ∈ r.children, N ≤ c) :
    Closed N (h.alloc r).1 ∧ N ≤ (h.alloc r).2 := by
  refine ⟨⟨by have := hc.1; simp [Heap.alloc]; omega, ?_⟩,
    by simp [Heap.alloc]; exact hc.1⟩
  intro j hj c hmem
  by_cases hjs : j = h.size
  · subst hjs
    have : recOf (h.alloc r).1 h.size = r := by
      simp [recOf, Heap.alloc]
    rw [this] at hmem
    exact hr c hmem
  · have : recOf (h.alloc r).1 j = recOf h j := by
      simp [recOf, Heap.alloc, hjs]
    rw [this] at hmem
    exact hc.2 j hj c hmem

/-- An optional id lying in the region. -/
def optGE (N : Nat) : Option Nat → Prop
  | none => True
  | some c => N ≤ c

/-- Results of `listAfter` are members of the list. -/
theorem listAfter_mem {l : List Nat} {c d : Nat}
    (h : listAfter l c = some d) : d ∈ l := by
  induction l with
  | nil => simp [listAfter] at h
  | cons a rest ih =>
    simp only [listAfter] at h
    split at h
    · right
      exact List.mem_of_mem_head? h
    · exact List.mem_cons_of_mem a (ih h)

/-- Next siblings of a region node stay in the region. -/
theorem nextSib_ge {N : Nat} {h : Heap} (hc : Closed N h) {p : Nat}
    (hp : N ≤ p) (c : Nat) : optGE N (nextSib h p c) := by
  unfold nextSib
  cases hd : listAfter (childrenOf h p) c with
  | none => trivial
  | some d =>
    exact hc.2 p hp d (listAfter_mem hd)

/-- The first child of a region node stays in the region. -/
theorem firstChild_ge {N : Nat} {h : Heap} (hc : Closed N h) {p : Nat}
    (hp : N ≤ p) : optGE N (firstChild h p) := by
  unfold firstChild
  cases hd : (childrenOf h p).head? with
  | none => trivial
  | some d =>
    exact hc.2 p hp d (List.mem_of_mem_head? hd)

/-- removeChild writes only the parent and keeps the region closed. -/
theorem removeChild_frame {N : Nat} {h : Heap} (hc : Closed N h) {p : Nat}
    (hp : N ≤ p) (c : Nat) :
    Preserved N h (removeChild h p c) ∧ Closed N (removeChild h p c) := by
  unfold removeChild
  exact ⟨set_preserved h _ hp,
    set_closed hc hp (fun x hx => hc.2 p hp x (List.mem_of_mem_erase hx))⟩

/-- setTextData writes only the node and keeps the region closed. -/
theorem setTextData_frame {N : Nat} {h : Heap} (hc : Closed N h) {i : Nat}
    (hi : N ≤ i) (s : String) :
    Preserved N h (setTextData h i s) ∧ Closed N (setTextData h i s) := by
  unfold setTextData
  exact ⟨set_preserved h _ hi,
    set_closed hc hi (fun x hx => hc.2 i hi x hx)⟩

/-- Membership in an insertion result. -/
theorem mem_insertListBefore {a : Nat} :
    ∀ (l : List Nat) (x r : Nat), a ∈ insertListBefore l x r →
      a = x ∨ a ∈ l := by
  intro l
  induction l with
  | nil =>
    intro x r h
    simp [insertListBefore] at h
    exact Or.inl h
  | cons b rest ih =>
    intro x r h
    simp only [insertListBefore] at h
    split at h
    · rcases List.mem_cons.mp h with h | h
      · exact Or.inl h
      · exact Or.inr h
    · rcases List.mem_cons.mp h with h | h
      · exact Or.inr (by simp [h])
      · rcases ih x r h with h | h
        · exact Or.inl h
        · exact Or.inr (List.mem_cons_of_mem b h)

/-- Membership in a positioned insertion. -/
theorem mem_insertIdBefore {a : Nat} (l : List Nat) (x : Nat)
    (ref : Option Nat) (h : a ∈ insertIdBefore l x ref) : a = x ∨ a ∈ l := by
  unfold insertIdBefore at h
  cases ref with
  | none =>
    rcases List.mem_append.mp h with h | h
    · exact Or.inr h
    · exact Or.inl (by simpa using h)
  | some r => exact mem_insertListBefore l x r h

/-- insertChildBefore writes only the parent and keeps the region closed
when the inserted id is in the region. -/
theorem insertChildBefore_frame {N : Nat} {h : Heap} (hc : Closed N h)
    {p : Nat} (hp : N ≤ p) {x : Nat} (hx : N ≤ x) (ref : Option Nat) :
    Preserved N h (insertChildBefore h p x ref) ∧
    Closed N (insertChildBefore h p x ref) := by
  unfold insertChildBefore
  refine ⟨set_preserved h _ hp, set_closed hc hp ?_⟩
  intro c hcmem
  rcases mem_insertIdBefore _ _ _ hcmem with hcx | hcl
  · omega
  · exact hc.2 p hp c hcl

/-- moveChildBefore writes only the parent and keeps the region closed
when the moved id is in the region. -/
theorem moveChildBefore_frame {N : Nat} {h : Heap} (hc : Closed N h)
    {p : Nat} (hp : N ≤ p) {x : Nat} (hx : N ≤ x) (ref : Option Nat) :
    Preserved N h (moveChildBefore h p x ref) ∧
    Closed N (moveChildBefore h p x ref) := by
  unfold moveChildBefore
  by_cases hr : ref = some x
  · rw [if_pos hr]
    exact ⟨preserved_refl N h, hc⟩
  · rw [if_neg hr]
    refine ⟨set_preserved h _ hp, set_closed hc hp ?_⟩
    intro c hcmem
    rcases mem_insertIdBefore _ _ _ hcmem with hcx | hcl
    · omega
    · exact hc.2 p hp c (List.mem_of_mem_erase hcl)

/-- Folding removeChild over a list of nodes stays within the parent. -/
theorem foldl_removeChild_frame {N : Nat} {p : Nat} (hp : N ≤ p) :
    ∀ (l : List Nat) (h : Heap), Closed N h →
      Preserved N h (l.foldl (fun hh n => removeChild hh p n) h) ∧
      Closed N (l.foldl (fun hh n => removeChild hh p n) h) := by
  intro l
  induction l with
  | nil =>
    intro h hc
    exact ⟨preserved_refl N h, hc⟩
  | cons n rest ih =>
    intro h hc
    have h1 := removeChild_frame hc hp n
    have h2 := ih (removeChild h p n) h1.2
    exact ⟨preserved_trans h1.1 h2.1, h2.2⟩

/-- setupSeparator allocates the meta node and writes only the parent. -/
theorem setupSeparator_frame {N : Nat} {h : Heap} (hc : Closed N h)
    {parent : Nat} (hp : N ≤ parent) (nodeA nodeB : Option Nat)
    (sepNodes : List Nat) (sepText : List String) :
    Preserved N h (setupSeparator h parent nodeA nodeB sepNodes sepText) ∧
    Closed N (setupSeparator h parent nodeA nodeB sepNodes sepText) := by
  have hmc : ∀ c ∈ (sepMetaRec sepText).children, N ≤ c := by
    intro c hcm
    simp [sepMetaRec] at hcm
  have hal := alloc_closed hc hmc
  have hpr := alloc_preserved hc (sepMetaRec sepText)
  have step2 : ∀ ref,
      Preserved N (h.alloc (sepMetaRec sepText)).1
        (insertChildBefore (h.alloc (sepMetaRec sepText)).1 parent
          (h.alloc (sepMetaRec sepText)).2 ref) ∧
      Closed N (insertChildBefore (h.alloc (sepMetaRec sepText)).1 parent
          (h.alloc (sepMetaRec sepText)).2 ref) :=
    fun ref => insertChildBefore_frame hal.1 hp hal.2 ref
  unfold setupSeparator
  cases nodeA with
  | some a =>
    have h2 := step2 (nextSib (h.alloc (sepMetaRec sepText)).1 parent a)
    have h3 := foldl_removeChild_frame hp sepNodes _ h2.2
    exact ⟨preserved_trans (preserved_trans hpr h2.1) h3.1, h3.2⟩
  | none =>
    cases nodeB with
    | some b =>
      have h2 := step2 (prevSib (h.alloc (sepMetaRec sepText)).1 parent b)
      have h3 := foldl_removeChild_frame hp sepNodes _ h2.2
      exact ⟨preserved_trans (preserved_trans hpr h2.1) h3.1, h3.2⟩
    | none =>
      have h3 := foldl_removeChild_frame hp sepNodes
        (h.alloc (sepMetaRec sepText)).1 hal.1
      exact ⟨preserved_trans hpr h3.1, h3.2⟩

/-- The coalescing loop writes only the parent and the heap stays closed;
its returned cursor stays in the region. -/
theorem coalesceRun_frame {N : Nat} {parent : Nat} (hp : N ≤ parent) :
    ∀ (fuel : Nat) (h : Heap) (next : Option Nat) (buf : List String),
      Closed N h → optGE N next →
      Preserved N h (coalesceRun fuel h parent next buf).1 ∧
      Closed N (coalesceRun fuel h parent next buf).1 ∧
      optGE N (coalesceRun fuel h parent next buf).2.1 := by
  intro fuel
  induction fuel with
  | zero =>
    intro h next buf hc hnext
    exact ⟨preserved_refl N h, hc, hnext⟩
  | succ f ih =>
    intro h next buf hc hnext
    unfold coalesceRun
    cases next with
    | none => exact ⟨preserved_refl N h, hc, trivial⟩
    | some n =>
      dsimp only
      by_cases ht : typeOf h n = 3
      · rw [if_pos ht]
        have hrm := removeChild_frame hc hp n
        have hnn := nextSib_ge hc hp n
        have hnn2 : optGE N (nextSib (removeChild h parent n) parent n) := by
          have := nextSib_ge hrm.2 hp n
          exact this
        have := ih (removeChild h parent n) (nextSib h parent n)
          (buf ++ [dataOf h n]) hrm.2 hnn
        exact ⟨preserved_trans hrm.1 this.1, this.2.1, this.2.2⟩
      · rw [if_neg ht]
        exact ⟨preserved_refl N h, hc, hnext⟩

/-- The separator-extraction loop writes only the current parent and its
children; slots below the region are untouched. -/
theorem ppLoop2_frame {N : Nat} {node : Nat} (hn : N ≤ node)
    (haveOrigSrc : Bool) :
    ∀ (fuel : Nat) (h : Heap) (child : Option Nat) (stalePrev : Option Nat)
      (prevSentinel : Option Nat) (wait : Bool) (sepNodes : List Nat)
      (sepText : List String),
      Closed N h → optGE N child →
      Preserved N h (ppLoop2 fuel haveOrigSrc h node child stalePrev
        prevSentinel wait sepNodes sepText) ∧
      Closed N (ppLoop2 fuel haveOrigSrc h node child stalePrev
        prevSentinel wait sepNodes sepText) := by
  intro fuel
  induction fuel with
  | zero =>
    intro h child stalePrev prevSentinel wait sepNodes sepText hc hch
    exact ⟨preserved_refl N h, hc⟩
  | succ f ih =>
    intro h child stalePrev prevSentinel wait sepNodes sepText hc hch
    unfold ppLoop2
    cases child with
    | none =>
      cases prevSentinel with
      | some a =>
        dsimp only
        by_cases hs : sepNodes ≠ []
        · rw [if_pos hs]
          exact setupSeparator_frame hc hn (some a) none sepNodes sepText
        · rw [if_neg hs]
          exact ⟨preserved_refl N h, hc⟩
      | none => exact ⟨preserved_refl N h, hc⟩
    | some c =>
      dsimp only
      have hcge : N ≤ c := hch
      have hnext := nextSib_ge hc hn c
      by_cases he : typeOf h c = 3 ∧ dataOf h c = ""
      · rw [if_pos he]
        have hrm := removeChild_frame hc hn c
        have hnext2 : optGE N (nextSib h node c) := hnext
        have := ih (removeChild h node c) (nextSib h node c) stalePrev
          prevSentinel wait sepNodes sepText hrm.2 hnext2
        exact ⟨preserved_trans hrm.1 this.1, this.2⟩
      · rw [if_neg he]
        by_cases hsrc : (!haveOrigSrc) = true
        · rw [if_pos hsrc]
          by_cases ht3 : typeOf h c = 3
          · rw [if_pos ht3]
            -- two possible text rewrites, both at c
            have hstep : ∀ (h1 : Heap), Closed N h1 → Preserved N h h1 →
                Preserved N h (ppLoop2 f haveOrigSrc h1 node
                  (nextSib h node c) stalePrev prevSentinel wait sepNodes
                  sepText) ∧
                Closed N (ppLoop2 f haveOrigSrc h1 node (nextSib h node c)
                  stalePrev prevSentinel wait sepNodes sepText) := by
              intro h1 hc1 hp1
              have := ih h1 (nextSib h node c) stalePrev prevSentinel wait
                sepNodes sepText hc1 hnext
              exact ⟨preserved_trans hp1 this.1, this.2⟩
            split
            · split
              · -- both rewrites
                have h1f := setTextData_frame hc hcge
                  (stripTrailingNLs (dataOf h c))
                have h2f := setTextData_frame h1f.2 hcge
                  (stripLeadingNLs (dataOf h c))
                exact hstep _ h2f.2 (preserved_trans h1f.1 h2f.1)
              · have h1f := setTextData_frame hc hcge
                  (stripTrailingNLs (dataOf h c))
                exact hstep _ h1f.2 h1f.1
            · split
              · have h1f := setTextData_frame hc hcge
                  (stripLeadingNLs (dataOf h c))
                exact hstep _ h1f.2 h1f.1
              · exact hstep _ hc (preserved_refl N h)
          · rw [if_neg ht3]
            have := ih h (nextSib h node c) stalePrev prevSentinel wait
              sepNodes sepText hc hnext
            exact this
        · rw [if_neg hsrc]
          by_cases ht3 : typeOf h c = 3
          · rw [if_pos ht3]
            split
            · exact ih h (nextSib h node c) stalePrev prevSentinel wait
                (sepNodes ++ [c]) (sepText ++ [dataOf h c]) hc hnext
            · exact ih h (nextSib h node c) stalePrev none true sepNodes
                sepText hc hnext
          · rw [if_neg ht3]
            by_cases ht8 : typeOf h c = 8
            · rw [if_pos ht8]
              split
              · exact ih h (nextSib h node c) stalePrev prevSentinel wait
                  (sepNodes ++ [c])
                  (sepText ++ ["<!--" ++ dataOf h c ++ "-->"]) hc hnext
              · exact ih h (nextSib h node c) stalePrev prevSentinel wait
                  sepNodes sepText hc hnext
            · rw [if_neg ht8]
              by_cases ht1 : typeOf h c = 1
              · rw [if_pos ht1]
                split
                · -- diff marker float
                  cases prevSentinel with
                  | some p =>
                    have hmv := moveChildBefore_frame hc hn hcge
                      (nextSib h node p)
                    have := ih (moveChildBefore h node c (nextSib h node p))
                      (nextSib h node c) stalePrev (some c) wait sepNodes
                      sepText hmv.2 hnext
                    exact ⟨preserved_trans hmv.1 this.1, this.2⟩
                  | none =>
                    have hmv := moveChildBefore_frame hc hn hcge
                      (firstChild h node)
                    have := ih (moveChildBefore h node c (firstChild h node))
                      (nextSib h node c) stalePrev (some c) wait sepNodes
                      sepText hmv.2 hnext
                    exact ⟨preserved_trans hmv.1 this.1, this.2⟩
                · -- sentinel element: maybe flush separator, then reset
                  split
                  · have hsep := setupSeparator_frame hc hn prevSentinel
                      (some c) sepNodes sepText
                    have := ih _ (nextSib h node c) stalePrev (some c) false
                      [] [] hsep.2 hnext
                    exact ⟨preserved_trans hsep.1 this.1, this.2⟩
                  · exact ih h (nextSib h node c) stalePrev (some c) false
                      [] [] hc hnext
              · rw [if_neg ht1]
                exact ih h (nextSib h node c) stalePrev prevSentinel wait
                  sepNodes sepText hc hnext

/-- The preprocessing pass (preprocessNode together with its
descend/coalesce loop) writes only nodes in the region: slots below `N`
are preserved and the region stays closed. -/
theorem preprocess_frame (N : Nat) :
    ∀ fuel : Nat,
      (∀ (hos ip : Bool) (h : Heap) (node : Nat), Closed N h → N ≤ node →
        Preserved N h (preprocessNode fuel hos ip h node) ∧
        Closed N (preprocessNode fuel hos ip h node)) ∧
      (∀ (hos ip : Bool) (h : Heap) (node : Nat) (child prev : Option Nat),
        Closed N h → N ≤ node → optGE N child →
        Preserved N h (ppLoop1 fuel hos ip h node child prev).1 ∧
        Closed N (ppLoop1 fuel hos ip h node child prev).1) := by
  intro fuel
  induction fuel with
  | zero =>
    constructor
    · intro hos ip h node hc _
      unfold preprocessNode
      exact ⟨preserved_refl N h, hc⟩
    · intro hos ip h node child prev hc _ _
      unfold ppLoop1
      exact ⟨preserved_refl N h, hc⟩
  | succ f ih =>
    constructor
    · intro hos ip h node hc hn
      unfold preprocessNode
      by_cases hm : nameOf h node = "meta"
      · rw [if_pos hm]
        exact ⟨preserved_refl N h, hc⟩
      · rw [if_neg hm]
        have hl1 := ih.2 hos ip h node (firstChild h node) none hc hn
          (firstChild_ge hc hn)
        dsimp only
        split
        · have hl2 := ppLoop2_frame hn hos f
            (ppLoop1 f hos ip h node (firstChild h node) none).1
            (firstChild (ppLoop1 f hos ip h node (firstChild h node) none).1
              node)
            (ppLoop1 f hos ip h node (firstChild h node) none).2 none false
            [] [] hl1.2 (firstChild_ge hl1.2 hn)
          exact ⟨preserved_trans hl1.1 hl2.1, hl2.2⟩
        · exact hl1
    · intro hos ip h node child prev hc hn hch
      unfold ppLoop1
      cases child with
      | none => exact ⟨preserved_refl N h, hc⟩
      | some c =>
        dsimp only
        have hcge : N ≤ c := hch
        have hnext0 := nextSib_ge hc hn c
        have hpp := ih.1 hos (ip || (nameOf h c = "pre" : Bool)) h c hc hcge
        set h1 := preprocessNode f hos (ip || (nameOf h c = "pre" : Bool)) h c
        split
        · -- text child: coalesce the following text run
          have hco := coalesceRun_frame hn f h1 (nextSib h node c)
            [dataOf h1 c] hpp.2 hnext0
          set q := coalesceRun f h1 node (nextSib h node c) [dataOf h1 c]
          have h3p : Preserved N q.1
              (if 1 < q.2.2.length then setTextData q.1 c (String.join q.2.2)
               else q.1) ∧ Closed N
              (if 1 < q.2.2.length then setTextData q.1 c (String.join q.2.2)
               else q.1) := by
            split
            · exact setTextData_frame hco.2.1 hcge (String.join q.2.2)
            · exact ⟨preserved_refl N q.1, hco.2.1⟩
          set h3 := if 1 < q.2.2.length then
            setTextData q.1 c (String.join q.2.2) else q.1
          have h4p : Preserved N h3
              (if dataOf h3 c = "" then removeChild h3 node c else h3) ∧
              Closed N (if dataOf h3 c = "" then removeChild h3 node c
                else h3) := by
            split
            · exact removeChild_frame h3p.2 hn c
            · exact ⟨preserved_refl N h3, h3p.2⟩
          set h4 := if dataOf h3 c = "" then removeChild h3 node c else h3
          have htail := ih.2 hos ip h4 node q.2.1 (prevSib h node c) h4p.2 hn
            hco.2.2
          exact ⟨preserved_trans hpp.1 (preserved_trans hco.1
            (preserved_trans h3p.1 (preserved_trans h4p.1 htail.1))),
            htail.2⟩
        · -- non-text child: continue with the next sibling
          have htail := ih.2 hos ip h1 node (nextSib h node c)
            (prevSib h node c) hpp.2 hn hnext0
          exact ⟨preserved_trans hpp.1 htail.1, htail.2⟩

/-- The html-pre patch writes only the node and its first child (plus a
fresh text node). -/
theorem htmlPrePatch_frame {N : Nat} {h : Heap} (hc : Closed N h)
    {node : Nat} (hn : N ≤ node) (s : String) :
    Preserved N h (htmlPrePatch h node s) ∧
    Closed N (htmlPrePatch h node s) := by
  unfold htmlPrePatch
  have hfc := firstChild_ge hc hn
  cases hf : firstChild h node with
  | some fc =>
    have hfcge : N ≤ fc := by
      rw [hf] at hfc
      exact hfc
    dsimp only
    split
    · split
      · exact setTextData_frame hc hfcge _
      · split
        · exact setTextData_frame hc hfcge _
        · exact ⟨preserved_refl N h, hc⟩
    · split
      · have hmc : ∀ c ∈ (textRec s).children, N ≤ c := by
          intro x hx
          simp [textRec] at hx
        have hal := alloc_closed hc hmc
        have hpr := alloc_preserved hc (textRec s)
        have hins := insertChildBefore_frame hal.1 hn hal.2 (some fc)
        exact ⟨preserved_trans hpr hins.1, hins.2⟩
      · exact ⟨preserved_refl N h, hc⟩
  | none =>
    dsimp only
    split
    · have hmc : ∀ c ∈ (textRec s).children, N ≤ c := by
        intro x hx
        simp [textRec] at hx
      have hal := alloc_closed hc hmc
      have hpr := alloc_preserved hc (textRec s)
      have hins := insertChildBefore_frame hal.1 hn hal.2 none
      exact ⟨preserved_trans hpr hins.1, hins.2⟩
    · exact ⟨preserved_refl N h, hc⟩

/-- The walk-time patch pass writes only region nodes. -/
theorem walkPatchList_frame (N : Nat) (sx : DomRec → Bool)
    (snl : DomRec → String) :
    ∀ (fuel : Nat) (l : List Nat) (h : Heap), Closed N h →
      (∀ c ∈ l, N ≤ c) →
      Preserved N h (walkPatchList sx snl fuel h l) ∧
      Closed N (walkPatchList sx snl fuel h l) := by
  intro fuel
  induction fuel with
  | zero =>
    intro l h hc _
    unfold walkPatchList
    exact ⟨preserved_refl N h, hc⟩
  | succ f ih =>
    intro l h hc hl
    cases l with
    | nil =>
      unfold walkPatchList
      exact ⟨preserved_refl N h, hc⟩
    | cons node rest =>
      unfold walkPatchList
      dsimp only
      have hn : N ≤ node := hl node (by simp)
      have h1p : Preserved N h (if nameOf h node = "pre" &&
            sx (recOf h node) then htmlPrePatch h node (snl (recOf h node))
          else h) ∧ Closed N (if nameOf h node = "pre" &&
            sx (recOf h node) then htmlPrePatch h node (snl (recOf h node))
          else h) := by
        split
        · exact htmlPrePatch_frame hc hn _
        · exact ⟨preserved_refl N h, hc⟩
      set h1 := if nameOf h node = "pre" && sx (recOf h node) then
        htmlPrePatch h node (snl (recOf h node)) else h
      have h2p := ih (childrenOf h1 node) h1 h1p.2
        (fun c hcm => h1p.2.2 node hn c hcm)
      have h3p := ih rest (walkPatchList sx snl f h1 (childrenOf h1 node))
        h2p.2 (fun c hcm => hl c (List.mem_cons_of_mem node hcm))
      exact ⟨preserved_trans h1p.1 (preserved_trans h2p.1 h3p.1), h3p.2⟩

/-- cloneNode(true) only allocates: existing slots are untouched, the
region stays closed, and the clone root lies in the region. -/
theorem cloneSub_frame (N : Nat) :
    ∀ (fuel : Nat) (h : Heap) (i : Nat), Closed N h →
      Preserved N h (cloneSub fuel h i).1 ∧ Closed N (cloneSub fuel h i).1 ∧
      N ≤ (cloneSub fuel h i).2 := by
  intro fuel
  induction fuel with
  | zero =>
    intro h i hc
    unfold cloneSub
    refine ⟨alloc_preserved hc default, ?_, ?_⟩
    · exact (alloc_closed hc (by intro x hx; simp [default] at hx)).1
    · exact (alloc_closed hc (by intro x hx; simp [default] at hx)).2
  | succ f ih =>
    intro h i hc
    unfold cloneSub
    dsimp only
    have hfold : ∀ (l : List Nat) (acc : Heap × List Nat),
        Closed N acc.1 → (∀ c ∈ acc.2, N ≤ c) →
        Preserved N acc.1 (l.foldl
          (fun (a : Heap × List Nat) c =>
            ((cloneSub f a.1 c).1, a.2 ++ [(cloneSub f a.1 c).2])) acc).1 ∧
        Closed N (l.foldl
          (fun (a : Heap × List Nat) c =>
            ((cloneSub f a.1 c).1, a.2 ++ [(cloneSub f a.1 c).2])) acc).1 ∧
        (∀ c ∈ (l.foldl
          (fun (a : Heap × List Nat) c =>
            ((cloneSub f a.1 c).1, a.2 ++ [(cloneSub f a.1 c).2])) acc).2,
          N ≤ c) := by
      intro l
      induction l with
      | nil =>
        intro acc hca hcl
        exact ⟨preserved_refl N acc.1, hca, hcl⟩
      | cons c rest ihl =>
        intro acc hca hcl
        have hcl1 := ih acc.1 c hca
        have hnew : ∀ x ∈ acc.2 ++ [(cloneSub f acc.1 c).2], N ≤ x := by
          intro x hx
          rcases List.mem_append.mp hx with hx | hx
          · exact hcl x hx
          · have : x = (cloneSub f acc.1 c).2 := by simpa using hx
            rw [this]
            exact hcl1.2.2
        have := ihl ((cloneSub f acc.1 c).1,
          acc.2 ++ [(cloneSub f acc.1 c).2]) hcl1.2.1 hnew
        exact ⟨preserved_trans hcl1.1 this.1, this.2⟩
    have hfr := hfold (recOf h i).children (h, []) hc (by intro x hx; simp at hx)
    set p := (recOf h i).children.foldl
      (fun (a : Heap × List Nat) c =>
        ((cloneSub f a.1 c).1, a.2 ++ [(cloneSub f a.1 c).2])) (h, [])
    have hchld : ∀ c ∈ ({ recOf h i with children := p.2 } : DomRec).children,
        N ≤ c := fun c hcm => hfr.2.2 c hcm
    have hal := alloc_closed hfr.2.1 hchld
    have hpr := alloc_preserved hfr.2.1 { recOf h i with children := p.2 }
    exact ⟨preserved_trans hfr.1 hpr, hal.1, hal.2⟩

/-- A well-formed arena: no record lives at or beyond `size`. -/
def WfArena (h : Heap) : Prop := ∀ i, h.size ≤ i → h.mem i = none

/-- A well-formed arena is closed at its own size. -/
theorem closed_of_wf {h : Heap} (hw : WfArena h) : Closed h.size h := by
  refine ⟨le_refl _, ?_⟩
  intro i hi c hmem
  rw [recOf, hw i hi] at hmem
  simp [default] at hmem

/-- C10: a serializeDOM call without a selser argument deep-clones the
input DOM before preprocessing, and the preprocessing mutations (text
coalescing, empty-node removal, separator-meta insertion) and the
walk-time html-pre patches hit only the clone: every heap slot that
existed before the call holds the same record afterwards, so the caller's
DOM is unchanged. -/
theorem c10_serializeDOM_preserves_input (sx : DomRec → Bool)
    (snl : DomRec → String) (fuel : Nat) (haveOrigSrc : Bool) (h : Heap)
    (node : Nat) (hw : WfArena h) :
    ∀ i, i < h.size →
      (serializeDOMPrepare sx snl fuel false haveOrigSrc h node).1.mem i =
        h.mem i := by
  intro i hi
  unfold serializeDOMPrepare
  rw [if_neg (by simp)]
  have hc := closed_of_wf hw
  have hcl := cloneSub_frame h.size fuel h node hc
  have hpp := (preprocess_frame h.size fuel).1 haveOrigSrc false
    (cloneSub fuel h node).1 (cloneSub fuel h node).2 hcl.2.1 hcl.2.2
  have hwk := walkPatchList_frame h.size sx snl fuel
    [(cloneSub fuel h node).2]
    (preprocessNode fuel haveOrigSrc false (cloneSub fuel h node).1
      (cloneSub fuel h node).2) hpp.2
    (by intro c hcm; simp at hcm; rw [hcm]; exact hcl.2.2)
  exact preserved_trans hcl.1 (preserved_trans hpp.1 hwk.1) i hi

/-- A one-node arena. -/
def oneNodeHeap : Heap :=
  { size := 1,
    mem := fun j => if j = 0 then
      some { name := "body", nodeType := 1, textData := "", attrs := [],
             children := [] }
    else none }

/-- C10 witness: the single pre-existing node of a one-node arena is intact
after a selser-less serializeDOMPrepare. -/
theorem c10_serializeDOM_preserves_input_witness :
    WfArena oneNodeHeap ∧ 0 < oneNodeHeap.size ∧
    (serializeDOMPrepare (fun _ => false) (fun _ => "") 3 false false
      oneNodeHeap 0).1.mem 0 = oneNodeHeap.mem 0 := by
  have hw : WfArena oneNodeHeap := by
    intro i hi
    have : i ≠ 0 := by
      simp [oneNodeHeap] at hi
      omega
    simp [oneNodeHeap, this]
  exact ⟨hw, by simp [oneNodeHeap],
    c10_serializeDOM_preserves_input (fun _ => false) (fun _ => "") 3 false
      oneNodeHeap 0 hw 0 (by simp [oneNodeHeap])⟩

end NellParsoid
